import Mathlib

/-!
# Mesh viewer page (`src/static/js/app.jsx`)

A shallow embedding of the numeric and state logic of the page's components:

* `MeshGenCard`: the explode transform (`applyExplodeImmediate`), the
  normalisation, camera framing and part extraction done in `onSuccess`, the
  progress writers (`progressTimer`, `onProgress`), the library loader
  (`loadScript`, `loadAny`, `ensureThree`), and the card as a state machine of
  effect runs and their callbacks (`Card`, `Event`);
* `MeshGenSection`: the manifest fetch and the placeholder;
* `EditingSection`: the `prev` and `next` updaters;
* `RotatingText`: the index handlers.

JavaScript numbers are modelled as rationals: `NaN` and the infinities are
outside the model and no rounding is performed.  The rendering engine
(Three.js) is not part of the repository; what the code needs from it is either
modelled after its documented behaviour (`Vector3`, `Box3` arithmetic) or taken
as a parameter (`Engine`, `JsMath`).  The network is a parameter too: which
scripts load, and which callback of a load fires.
-/

namespace MeshGen

/-! ## Numbers and vectors -/

/-- JavaScript `a || b` on numbers: `0` is the only falsy number of the model. -/
def jsOr (a b : ℚ) : ℚ := if a = 0 then b else a

/-- The engine's `THREE.Vector3`. -/
structure Vec3 where
  x : ℚ
  y : ℚ
  z : ℚ
deriving DecidableEq

namespace Vec3

/-- The engine's `new THREE.Vector3(0,0,0)`. -/
def zero : Vec3 := ⟨0, 0, 0⟩

/-- The engine's `Vector3.add`. -/
def add (a b : Vec3) : Vec3 := ⟨a.x + b.x, a.y + b.y, a.z + b.z⟩

/-- The engine's `Vector3.sub`. -/
def sub (a b : Vec3) : Vec3 := ⟨a.x - b.x, a.y - b.y, a.z - b.z⟩

/-- The engine's `Vector3.multiplyScalar`. -/
def multiplyScalar (a : Vec3) (s : ℚ) : Vec3 := ⟨a.x * s, a.y * s, a.z * s⟩

/-- The engine's `Vector3.divideScalar(s)`, which is `multiplyScalar(1 / s)`. -/
def divideScalar (a : Vec3) (s : ℚ) : Vec3 := a.multiplyScalar (1 / s)

/-- The engine's `Vector3.lengthSq`. -/
def lengthSq (a : Vec3) : ℚ := a.x * a.x + a.y * a.y + a.z * a.z

/-- The engine's `Vector3.length`, `Math.sqrt` of the squared length; `sqrt` stands for
`Math.sqrt`. -/
def length (sqrt : ℚ → ℚ) (a : Vec3) : ℚ := sqrt a.lengthSq

/-- The engine's `Vector3.normalize`: `divideScalar(length() || 1)`. -/
def normalize (sqrt : ℚ → ℚ) (a : Vec3) : Vec3 :=
  a.divideScalar (jsOr (a.length sqrt) 1)

end Vec3

/-! ## Scene graph and explode data -/

/-- A node of the scene graph (`THREE.Object3D`), reduced to what the card
reads and writes: the node `id`, its local `position`, the recorded
`userData.originalPosition` (absent until `onSuccess` records it) and its
children. -/
inductive Object3D where
  | mk (id : ℕ) (position : Vec3) (originalPosition : Option Vec3)
      (children : List Object3D)

namespace Object3D

/-- Field `id`. -/
def id : Object3D → ℕ
  | mk i _ _ _ => i

/-- Field `position`. -/
def position : Object3D → Vec3
  | mk _ p _ _ => p

/-- Field `userData.originalPosition`. -/
def originalPosition : Object3D → Option Vec3
  | mk _ _ o _ => o

/-- Field `children`. -/
def children : Object3D → List Object3D
  | mk _ _ _ cs => cs

/-- The statement `part.position.copy(v)`. -/
def setPosition : Object3D → Vec3 → Object3D
  | mk i _ o cs, v => mk i v o cs

/-- The statement `part.userData.originalPosition = v`. -/
def setOriginalPosition : Object3D → Vec3 → Object3D
  | mk i p _ cs, v => mk i p (some v) cs

end Object3D

/-- What the card asks of the rendering engine while exploding:
`bboxCenter part` is `new THREE.Box3().setFromObject(part).getCenter(..)`, the
centre of the world-space bounding box of the part in its current state (it
reads the part's current position), and `sqrt` is `Math.sqrt`. -/
structure Engine where
  bboxCenter : Object3D → Vec3
  sqrt : ℚ → ℚ

/-- The value of `explodeDataRef.current`.  The fields `root` and `center` of
the JavaScript object are written but never read and are left out. -/
structure ExplodeData where
  ready : Bool
  parts : List Object3D
  radius : ℚ

/-- The initial `explodeDataRef.current`:
`{ ready: false, parts: [], radius: 1, .. }`. -/
def ExplodeData.initial : ExplodeData := ⟨false, [], 1⟩

/-- The body of the `forEach` of `applyExplodeImmediate` for one part.  Every
vector the source mutates in place is a fresh one (`getCenter` target,
`clone()`), so values suffice; the surrounding `try`/`catch` has nothing to
catch here. -/
def explodePart (E : Engine) (distance : ℚ) (part : Object3D) : Object3D :=
  let c := E.bboxCenter part
  let dir := c.normalize E.sqrt
  let base := match part.originalPosition with
    | some o => o
    | none => part.position
  let offset := dir.multiplyScalar distance
  part.setPosition (base.add offset)

/-- The call `applyExplodeImmediate(value)` as a function of `explodeDataRef.current`. -/
def applyExplodeImmediate (E : Engine) (data : ExplodeData) (value : ℚ) : ExplodeData :=
  if !data.ready || data.parts.length == 0 then data
  else
    let distance := jsOr data.radius 1 * (6 / 10) * value
    { data with parts := data.parts.map (explodePart E distance) }

/-- A sequence of calls `applyExplodeImmediate(value)`, each seeing the engine
state of its own moment. -/
def explodeCalls (data : ExplodeData) (calls : List (Engine × ℚ)) : ExplodeData :=
  calls.foldl (fun d c => applyExplodeImmediate c.1 d c.2) data

/-! ## `onSuccess`: normalisation and part extraction -/

/-- The engine's `THREE.Box3`: an axis-aligned box given by its corners. -/
structure Box3 where
  min : Vec3
  max : Vec3

namespace Box3

/-- The engine's `Box3.isEmpty`. -/
def isEmpty (b : Box3) : Bool :=
  decide (b.max.x < b.min.x) || decide (b.max.y < b.min.y) || decide (b.max.z < b.min.z)

/-- The engine's `Box3.getSize`. -/
def getSize (b : Box3) : Vec3 := if b.isEmpty then Vec3.zero else b.max.sub b.min

/-- The engine's `Box3.getCenter`. -/
def getCenter (b : Box3) : Vec3 :=
  if b.isEmpty then Vec3.zero else (b.min.add b.max).multiplyScalar (1 / 2)

end Box3

/-- The source line `Math.max(size.x, size.y, size.z)`. -/
def max3 (size : Vec3) : ℚ := max (max size.x size.y) size.z

/-- The source line `const maxDim = Math.max(size.x, size.y, size.z) || 1`. -/
def maxDim (size : Vec3) : ℚ := jsOr (max3 size) 1

/-- The source line `const target = 1.6`. -/
def target : ℚ := 16 / 10

/-- The source line `const scale = target / maxDim`. -/
def scale (size : Vec3) : ℚ := target / maxDim size

/-- The source line `const radius = Math.max(size.x, size.y, size.z) * scale || 1`. -/
def radius (size : Vec3) : ℚ := jsOr (max3 size * scale size) 1

/-- The source line `const partsParent = root.children[0] || root`. -/
def partsParent (root : Object3D) : Object3D :=
  match root.children with
  | c :: _ => c
  | [] => root

/-- The `forEach` that fills `parts`: every child of `partsParent`, in order,
with a clone of its position recorded as `userData.originalPosition`. -/
def extractParts (root : Object3D) : List Object3D :=
  (partsParent root).children.map (fun part => part.setOriginalPosition part.position)

/-- The value `onSuccess` stores in `explodeDataRef.current` for a loaded
asset with scene `root` and bounding box `box`. -/
def onSuccessExplodeData (root : Object3D) (box : Box3) : ExplodeData :=
  let parts := extractParts root
  { ready := decide (parts.length > 1), parts := parts, radius := radius box.getSize }

/-! ## Progress writers of a load attempt -/

/-- The updater run by the synthetic ticker every 400 ms:
`(p) => (p < 0.9 ? Math.min(0.9, p + 0.02) : p)`. -/
def tick (p : ℚ) : ℚ := if p < 9 / 10 then min (9 / 10) (p + 2 / 100) else p

/-- The `xhr` argument of `onProgress`: byte counts, `total` possibly absent. -/
structure ProgressEvent where
  loaded : ℕ
  total : Option ℕ

/-- The source line `const t = xhr.total || 0`. -/
def ProgressEvent.t (xhr : ProgressEvent) : ℕ :=
  match xhr.total with
  | some n => n
  | none => 0

/-- The progress value `onProgress(xhr)` stores when the card is not disposed
and the progress was `p`. -/
def onProgress (xhr : ProgressEvent) (p : ℚ) : ℚ :=
  if xhr.t > 0 then min 1 ((xhr.loaded : ℚ) / (xhr.t : ℚ))
  else (if p < 1 / 2 then 1 / 2 else p)

/-- What can write the progress of a load attempt after its setup: a tick of
the synthetic ticker, an `onProgress` event, `onSuccess` (`setProgress(1)`) and
the failure of the fallback (`setProgress(0)`). -/
inductive LoadEvent where
  | tick
  | progress (xhr : ProgressEvent)
  | success
  | failure

/-- The progress value an event writes when the progress was `p`. -/
def LoadEvent.write : LoadEvent → ℚ → ℚ
  | .tick, p => MeshGen.tick p
  | .progress xhr, p => onProgress xhr p
  | .success, _ => 1
  | .failure, _ => 0

/-- An event of a load whose transport reports no total size: a tick, or an
`onProgress` event whose `total` is `0` or absent. -/
def LoadEvent.unknownTotal : LoadEvent → Bool
  | .tick => true
  | .progress xhr => xhr.t == 0
  | _ => false

/-- An `onProgress` event whose `total` is `0` or absent. -/
def LoadEvent.unknownProgress : LoadEvent → Bool
  | .progress xhr => xhr.t == 0
  | _ => false

/-- The statement `setProgress(0.01)` of the setup. -/
def initialProgress : ℚ := 1 / 100

/-- The progress values of a load attempt in the order they are written: the
`0.01` of the setup, then one value for each event. -/
def progressWrites (events : List LoadEvent) : List ℚ :=
  events.scanl (fun p e => e.write p) initialProgress

/-! ## A concrete asset with a rotated primary group -/

/-- The engine as it answers for an asset whose primary group node is rotated
by 90 degrees about the z axis, the scene root keeping the identity transform,
and whose parts carry geometry centred at their own origin: the world-space
bounding-box centre of a part at local position `(x, y, z)` is `(-y, x, z)`.
`Math.sqrt` is the rational square root, exact on squares. -/
def rotatedEngine : Engine where
  bboxCenter := fun part => ⟨-part.position.y, part.position.x, part.position.z⟩
  sqrt := Rat.sqrt

/-- The scene of that asset: the root, its rotated group, and two parts at
local positions `(0.28, 0, 0)` and `(-0.28, 0, 0)`. -/
def rotatedRoot : Object3D :=
  .mk 0 Vec3.zero none
    [.mk 1 Vec3.zero none
      [.mk 2 ⟨7 / 25, 0, 0⟩ none [], .mk 3 ⟨-7 / 25, 0, 0⟩ none []]]

/-- The world-space bounding box of that asset when each part is a
`0.2 x 0.2 x 1.6` block: largest dimension `1.6`, centre at the origin. -/
def rotatedBox : Box3 := ⟨⟨-1 / 10, -38 / 100, -8 / 10⟩, ⟨1 / 10, 38 / 100, 8 / 10⟩⟩

/-- A scene whose primary group has a single part. -/
def singlePartRoot : Object3D :=
  .mk 0 Vec3.zero none [.mk 1 Vec3.zero none [.mk 2 ⟨1, 2, 3⟩ none []]]

/-! ## `onSuccess`: camera framing and re-centring of the root -/

/-- What `onSuccess` uses of JavaScript's `Math` besides `max`: `Math.tan` and
the constant `Math.PI`. -/
structure JsMath where
  tan : ℚ → ℚ
  pi : ℚ

/-- The camera's `fov`, set by `new THREE.PerspectiveCamera(35, ..)`. -/
def cameraFov : ℚ := 35

/-- The source line `const fov = camera.fov * (Math.PI / 180)`. -/
def fovRadians (M : JsMath) (fov : ℚ) : ℚ := fov * (M.pi / 180)

/-- The source line
`const dist = (maxDim * scale) / (2 * Math.tan(fov / 2)) + 0.5`. -/
def cameraDist (M : JsMath) (fov : ℚ) (size : Vec3) : ℚ :=
  (maxDim size * scale size) / (2 * M.tan (fovRadians M fov / 2)) + 5 / 10

/-- The position given by `camera.position.set(0.6 * dist, 0.3 * dist, dist)`. -/
def cameraPosition (M : JsMath) (fov : ℚ) (size : Vec3) : Vec3 :=
  ⟨6 / 10 * cameraDist M fov size, 3 / 10 * cameraDist M fov size, cameraDist M fov size⟩

/-- The transform of the scene root as far as `onSuccess` touches it: its
local position and its uniform scale (`root.scale.setScalar`).  The root has no
parent and no rotation of its own (`gltf.scene` is a fresh group), so a point
`v` of the asset lies at `position + scale * v` in world space. -/
structure RootTransform where
  position : Vec3
  scale : ℚ

namespace RootTransform

/-- The transform of `gltf.scene` as the loader delivers it: the identity. -/
def loaded : RootTransform := ⟨Vec3.zero, 1⟩

/-- The world-space place of the asset point `v`. -/
def apply (t : RootTransform) (v : Vec3) : Vec3 := t.position.add (v.multiplyScalar t.scale)

/-- The world-space bounding box (`Box3.setFromObject(root)`) of an asset
whose points fill the box `b`, for a non-negative scale. -/
def box (t : RootTransform) (b : Box3) : Box3 := ⟨t.apply b.min, t.apply b.max⟩

end RootTransform

/-- The two statements `root.scale.setScalar(scale)` and
`root.position.sub(center.multiplyScalar(scale))` of `onSuccess`, for the
measured bounding box `box`. -/
def normalizeRoot (t : RootTransform) (box : Box3) : RootTransform :=
  { scale := scale box.getSize
    position := t.position.sub (box.getCenter.multiplyScalar (scale box.getSize)) }

/-! ## Library loader: `loadScript`, `loadAny`, `ensureThree` -/

/-- The outcome of `loadScript(src)`: the promise resolves when the script
loads (`net src`), and rejects with ``new Error(`Load failed: ${src}`)``
otherwise.  Errors are modelled by their message. -/
def loadScript (net : String → Bool) (src : String) : Except String Unit :=
  if net src then .ok () else .error ("Load failed: " ++ src)

/-- The loop of `loadAny` from a given `lastErr`: the sources attempted, in
order, and the outcome.  After the loop the source throws
`lastErr || new Error('All CDN sources failed')`. -/
def loadAnyFrom (net : String → Bool) :
    List String → Option String → List String × Except String Unit
  | [], lastErr =>
    ([], .error (match lastErr with
      | some e => e
      | none => "All CDN sources failed"))
  | u :: us, _ =>
    match loadScript net u with
    | .ok _ => ([u], .ok ())
    | .error e => (u :: (loadAnyFrom net us (some e)).1, (loadAnyFrom net us (some e)).2)

/-- The sources `loadAny(urls)` attempts, in order. -/
def loadAnyAttempts (net : String → Bool) (urls : List String) : List String :=
  (loadAnyFrom net urls none).1

/-- The outcome of `loadAny(urls)`. -/
def loadAny (net : String → Bool) (urls : List String) : Except String Unit :=
  (loadAnyFrom net urls none).2

/-- The globals `ensureThree` tests: `window.THREE`, `THREE.OrbitControls`,
`THREE.GLTFLoader`, `THREE.DRACOLoader` and `window.MeshoptDecoder`. -/
structure Window where
  three : Bool
  orbitControls : Bool
  gltfLoader : Bool
  dracoLoader : Bool
  meshoptDecoder : Bool

/-- The sources of the engine core. -/
def threeUrls : List String :=
  ["https://cdnjs.cloudflare.com/ajax/libs/three.js/r134/three.min.js",
   "https://unpkg.com/three@0.134.0/build/three.min.js"]

/-- The sources of `OrbitControls`. -/
def orbitControlsUrls : List String :=
  ["https://cdn.jsdelivr.net/npm/three/examples/js/controls/OrbitControls.js",
   "https://unpkg.com/three/examples/js/controls/OrbitControls.js"]

/-- The sources of `GLTFLoader`. -/
def gltfLoaderUrls : List String :=
  ["https://cdn.jsdelivr.net/npm/three/examples/js/loaders/GLTFLoader.js",
   "https://unpkg.com/three/examples/js/loaders/GLTFLoader.js"]

/-- The sources of `DRACOLoader`. -/
def dracoLoaderUrls : List String :=
  ["https://cdn.jsdelivr.net/npm/three/examples/js/loaders/DRACOLoader.js",
   "https://unpkg.com/three/examples/js/loaders/DRACOLoader.js"]

/-- The sources of `MeshoptDecoder`. -/
def meshoptUrls : List String :=
  ["https://unpkg.com/meshoptimizer@0.20.0/meshopt_decoder.js",
   "https://cdn.jsdelivr.net/npm/meshoptimizer@0.20.0/meshopt_decoder.js"]

/-- One `if (!present) { await loadAny(urls); }` of `ensureThree`: nothing is
attempted for a global already present; a rejection of `loadAny` propagates. -/
def ensureOne (net : String → Bool) (present : Bool) (urls : List String) : Except String Unit :=
  if !present then loadAny net urls else .ok ()

/-- The function `ensureThree` on the globals `w`: the five dependencies in
order, each script that loads defining its global.  It returns the globals
after it resolves, or the error it rejects with. -/
def ensureThree (net : String → Bool) (w : Window) : Except String Window := do
  ensureOne net w.three threeUrls
  ensureOne net w.orbitControls orbitControlsUrls
  ensureOne net w.gltfLoader gltfLoaderUrls
  ensureOne net w.dracoLoader dracoLoaderUrls
  ensureOne net w.meshoptDecoder meshoptUrls
  pure ⟨true, true, true, true, true⟩

/-- The error `loadAny` rejects with when every source fails: the error of the
last source, or `lastErr || new Error('All CDN sources failed')` when there is
no source. -/
def lastError (urls : List String) (lastErr : Option String) : String :=
  match urls.getLast? with
  | some u => "Load failed: " ++ u
  | none =>
    match lastErr with
    | some e => e
    | none => "All CDN sources failed"

/-- The dependencies of `ensureThree`, in order: whether the global is present
and the sources of its script. -/
def dependencies (w : Window) : List (Bool × List String) :=
  [(w.three, threeUrls), (w.orbitControls, orbitControlsUrls), (w.gltfLoader, gltfLoaderUrls),
    (w.dracoLoader, dracoLoaderUrls), (w.meshoptDecoder, meshoptUrls)]

/-! ## The card: state, effect run, callbacks -/

/-- Where the `try` block of the load effect throws after `await
ensureThree()` has resolved, when it does, by what the run has made so far.
At `renderer`: up to `new THREE.WebGLRenderer(..)`, which throws when the
browser gives no WebGL context; nothing of the run is in the page.  At
`controls`: after `wrap.appendChild(renderer.domElement)` and before
`threeRef.current` is assigned, in the constructors of the scene, the camera,
the controls or the lights.  At `url`: after `setInterval` and before
`loader.load`, in the constructors of the loaders or in `new URL(item.src, ..)`
and `new URL('./', url)`, which throw for a source that is no valid URL and
for a `data:` or `blob:` source (it cannot be a base).  At `frame`: after
`loader.load`, in the first call of `animate` before `requestAnimationFrame`.
The statements after that (`addEventListener`, the assignment of `cleanup`)
do not throw. -/
inductive SetupThrow where
  | renderer
  | controls
  | url
  | frame

/-- The value of `threeRef.current`, each handle named by the effect run that
made it: `context` stands for the four fields `renderer`, `scene`, `camera`
and `controls` (all `null`, or all objects of one run), `raf` is the stored
animation-frame handle (`0` is `none`), `progressTimer` the stored interval id
and `cleanup` the stored teardown closure. -/
structure ThreeRef where
  context : Option ℕ
  raf : Option ℕ
  progressTimer : Option ℕ
  cleanup : Option ℕ

/-- The object `{ renderer: null, scene: null, camera: null, controls: null,
raf: 0 }`. -/
def ThreeRef.empty : ThreeRef := ⟨none, none, none, none⟩

/-- One `MeshGenCard` and what it holds in the page.  The React state is
`progress`, `loading`, `explode`, `errorMsg`; the refs are `explodeData` and
`threeRef`.  Effect runs of the load effect are numbered `1, 2, ..`; `run` is
the latest one and `live` tells whether its teardown has not run yet, so the
flag `disposed` of run `r` is false exactly when `live` and `r = run` (React
tears a run down before it starts the next).  The value of `explode` seen by
the closures of the latest run is `captured`.  The lists hold what is in
flight or active, by run: awaited `ensureThree` calls (`pending`), direct
loads (`loads`), fallback fetch-and-parse (`fallbacks`), intervals (`timers`),
animation loops (`loops`), renderer canvases in the page (`attached`) and
resize listeners (`listeners`). -/
structure Card where
  progress : ℚ
  loading : Bool
  explode : ℚ
  errorMsg : Option String
  explodeData : ExplodeData
  threeRef : ThreeRef
  run : ℕ
  live : Bool
  captured : ℚ
  pending : List ℕ
  loads : List ℕ
  fallbacks : List ℕ
  timers : List ℕ
  loops : List ℕ
  attached : List ℕ
  listeners : List ℕ

namespace Card

/-- The card before its first effect run: the initial `useState` and `useRef`
values. -/
def initial : Card :=
  { progress := 0, loading := true, explode := 0, errorMsg := none,
    explodeData := ExplodeData.initial, threeRef := ThreeRef.empty,
    run := 0, live := false, captured := 0,
    pending := [], loads := [], fallbacks := [], timers := [], loops := [],
    attached := [], listeners := [] }

/-- The flag `disposed` of effect run `r`. -/
def disposed (s : Card) (r : ℕ) : Bool := !(s.live && r == s.run)

/-- The statement `if (threeRef.current.progressTimer) {
clearInterval(threeRef.current.progressTimer);
threeRef.current.progressTimer = null; }`. -/
def clearProgressTimer (s : Card) : Card :=
  match s.threeRef.progressTimer with
  | some t =>
    { s with timers := s.timers.filter (fun x => x != t)
             threeRef := { s.threeRef with progressTimer := none } }
  | none => s

/-- The statement `if (threeRef.current.raf)
cancelAnimationFrame(threeRef.current.raf)`. -/
def cancelRaf (s : Card) : Card :=
  match s.threeRef.raf with
  | some l => { s with loops := s.loops.filter (fun x => x != l) }
  | none => s

/-- The explode effect `useEffect(() => applyExplodeImmediate(explode),
[explode, ..])` after `setExplode(v)`: it runs when the value changed. -/
def setExplode (E : Engine) (s : Card) (v : ℚ) : Card :=
  if v = s.explode then s
  else { s with explode := v, explodeData := applyExplodeImmediate E s.explodeData v }

/-- The start of an effect run: `let disposed = false` and the call of the
async body, which awaits `ensureThree()`. -/
def mount (s : Card) : Card :=
  { s with run := s.run + 1, live := true, captured := s.explode,
           pending := (s.run + 1) :: s.pending }

/-- The closure `threeRef.current.cleanup` made by run `c`. -/
def cleanup (s : Card) (c : ℕ) : Card :=
  let s1 := { s with listeners := s.listeners.filter (fun x => x != c) }
  let s2 := s1.cancelRaf
  let s3 := { s2 with attached := s2.attached.filter (fun x => x != c) }
  let s4 := s3.clearProgressTimer
  { s4 with threeRef := ThreeRef.empty }

/-- The function the effect returns: `disposed = true; if
(threeRef.current.cleanup) threeRef.current.cleanup();`. -/
def teardown (s : Card) : Card :=
  let s1 := { s with live := false }
  match s1.threeRef.cleanup with
  | some c => s1.cleanup c
  | none => s1

/-- The `catch` of the effect body: `setErrorMsg('Lib load failed');
setLoading(false);`. -/
def catchLibFailed (s : Card) : Card :=
  { s with errorMsg := some "Lib load failed", loading := false }

/-- The statement `wrap.appendChild(renderer.domElement)` of run `r`. -/
def setupAttach (s : Card) (r : ℕ) : Card :=
  { s with attached := r :: s.attached }

/-- The statements of the effect body from `threeRef.current = { renderer,
scene, camera, controls, raf: 0 }` to `setInterval`, for run `r`: the new
context is stored in a fresh object, which has no `progressTimer` and no
`cleanup`, the state is reset and the ticker is started. -/
def setupContext (E : Engine) (s : Card) (r : ℕ) : Card :=
  let s3 := { s with threeRef := { context := some r, raf := none,
                                   progressTimer := none, cleanup := none } }
  let s4 := { s3 with progress := 1 / 100, loading := true, errorMsg := none }
  let s5 := setExplode E s4 0
  let s6 := s5.clearProgressTimer
  { s6 with timers := r :: s6.timers
            threeRef := { s6.threeRef with progressTimer := some r } }

/-- The call `loader.load(url, onSuccess, onProgress, onError)` of run `r`. -/
def setupStartLoad (s : Card) (r : ℕ) : Card :=
  { s with loads := r :: s.loads }

/-- The statements of the effect body from `animate()` to the end, for run
`r`: the animation loop and the resize listener are installed and the cleanup
closure is stored. -/
def setupFinish (s : Card) (r : ℕ) : Card :=
  let s8 := { s with loops := r :: s.loops
                     threeRef := { s.threeRef with raf := some r } }
  { s8 with listeners := r :: s8.listeners
            threeRef := { s8.threeRef with cleanup := some r } }

/-- The `try` block of the effect after `await ensureThree()` resolved, for
run `r`, with the place where it throws, if it does.  Nothing happens when the
run is disposed.  Otherwise the previous loop and canvas are dropped; then the
block runs to its end, or it throws at `throwsAt` and the `catch` runs on what
has been done so far.  The `catch` undoes nothing: a canvas put in the page,
an interval started and a load started stay, and no cleanup closure has been
stored for them. -/
def setup (E : Engine) (s : Card) (r : ℕ) (throwsAt : Option SetupThrow) : Card :=
  if s.disposed r then s
  else
    let s1 := s.cancelRaf
    let s2 := match s1.threeRef.context with
      | some c => { s1 with attached := s1.attached.filter (fun x => x != c) }
      | none => s1
    match throwsAt with
    | some .renderer => s2.catchLibFailed
    | some .controls => (setupAttach s2 r).catchLibFailed
    | some .url => (setupContext E (setupAttach s2 r) r).catchLibFailed
    | some .frame =>
      (setupStartLoad (setupContext E (setupAttach s2 r) r) r).catchLibFailed
    | none => setupFinish (setupStartLoad (setupContext E (setupAttach s2 r) r) r) r

/-- The interval callback: `setProgress((p) => ..)`. -/
def timerTick (s : Card) : Card := { s with progress := tick s.progress }

/-- The function `animate` on a frame of loop `l`: it stores the next frame's
handle in `threeRef.current.raf`. -/
def frame (s : Card) (l : ℕ) : Card :=
  { s with threeRef := { s.threeRef with raf := some l } }

/-- The callback `onProgress(xhr)` of run `r`. -/
def onProgress (s : Card) (r : ℕ) (xhr : ProgressEvent) : Card :=
  if s.disposed r then s else { s with progress := MeshGen.onProgress xhr s.progress }

/-- The first statements of `onError` of run `r`: the direct load has failed
and the fallback `fetch` is started. -/
def onError (s : Card) (r : ℕ) : Card :=
  { s with loads := s.loads.filter (fun x => x != r), fallbacks := r :: s.fallbacks }

/-- The callback `onSuccess(gltf)` of run `r`, called by the direct load or by
the fallback parse, for the scene `root` with bounding box `box`. -/
def onSuccess (E : Engine) (s : Card) (r : ℕ) (root : Object3D) (box : Box3) : Card :=
  let s0 := { s with loads := s.loads.filter (fun x => x != r)
                     fallbacks := s.fallbacks.filter (fun x => x != r) }
  if s0.disposed r then s0
  else
    let s1 := { s0 with explodeData := onSuccessExplodeData root box }
    let s2 := s1.clearProgressTimer
    let s3 := { s2 with progress := 1, loading := false, errorMsg := none }
    { s3 with explodeData := applyExplodeImmediate E s3.explodeData s3.captured }

/-- The failure of the fallback of run `r`, the same statements in the parse
error callback and in `catch (e2)`: the timer stored in `threeRef.current` is
cleared, and `if (!disposed) { setLoading(false); setProgress(0);
setErrorMsg('Load failed'); }`. -/
def fallbackFailed (s : Card) (r : ℕ) : Card :=
  let s0 := { s with fallbacks := s.fallbacks.filter (fun x => x != r) }
  let s1 := s0.clearProgressTimer
  if s1.disposed r then s1
  else { s1 with loading := false, progress := 0, errorMsg := some "Load failed" }

/-- The slider handlers `onChange` and `onInput` for the input value `v`. -/
def slider (E : Engine) (s : Card) (v : ℚ) : Card :=
  setExplode E s (max 0 (min 1 (v / 100)))

end Card

/-- What can happen to a card: the start and the teardown of an effect run,
the continuations of a run `r` (dependencies resolved or rejected, progress,
direct-load error, success, fallback failure by fetch or by parse), a tick of
interval `t`, a frame of loop `l`, and a slider input.  When the dependencies
resolve, the body of the effect runs to its end (`depResolved`) or throws at
`p` and is caught (`setupThrew`); for a run that is disposed by then the body
returns at once in both. -/
inductive Event where
  | mount
  | teardown
  | depResolved (r : ℕ) (E : Engine)
  | depRejected (r : ℕ)
  | timerTick (t : ℕ)
  | frame (l : ℕ)
  | progress (r : ℕ) (xhr : ProgressEvent)
  | directError (r : ℕ)
  | success (r : ℕ) (root : Object3D) (box : Box3) (E : Engine)
  | fetchFailed (r : ℕ)
  | parseFailed (r : ℕ)
  | slider (v : ℚ) (E : Engine)
  | setupThrew (r : ℕ) (E : Engine) (p : SetupThrow)

namespace Card

/-- Whether the event can happen in state `s`: a run starts when none is
live, and is torn down when live; a continuation fires for a call in flight;
an interval or loop fires while active; the slider exists while the card is
mounted and not loading. -/
def canFire (s : Card) : Event → Bool
  | .mount => !s.live
  | .teardown => s.live
  | .depResolved r _ => decide (r ∈ s.pending)
  | .depRejected r => decide (r ∈ s.pending)
  | .timerTick t => decide (t ∈ s.timers)
  | .frame l => decide (l ∈ s.loops)
  | .progress r _ => decide (r ∈ s.loads)
  | .directError r => decide (r ∈ s.loads)
  | .success r _ _ _ => decide (r ∈ s.loads) || decide (r ∈ s.fallbacks)
  | .fetchFailed r => decide (r ∈ s.fallbacks)
  | .parseFailed r => decide (r ∈ s.fallbacks)
  | .slider _ _ => s.live && !s.loading
  | .setupThrew r _ _ => decide (r ∈ s.pending)

/-- The state after an event. -/
def step (s : Card) : Event → Card
  | .mount => s.mount
  | .teardown => s.teardown
  | .depResolved r E =>
    setup E { s with pending := s.pending.filter (fun x => x != r) } r none
  | .depRejected r =>
    catchLibFailed { s with pending := s.pending.filter (fun x => x != r) }
  | .timerTick _ => s.timerTick
  | .frame l => s.frame l
  | .progress r xhr => s.onProgress r xhr
  | .directError r => s.onError r
  | .success r root box E => onSuccess E s r root box
  | .fetchFailed r => s.fallbackFailed r
  | .parseFailed r => s.fallbackFailed r
  | .slider v E => slider E s v
  | .setupThrew r E p =>
    setup E { s with pending := s.pending.filter (fun x => x != r) } r (some p)

/-- The state after a sequence of events, `none` when one of them cannot
happen where it stands. -/
def exec (s : Card) : List Event → Option Card
  | [] => some s
  | e :: es => if s.canFire e then (s.step e).exec es else none

end Card

/-- The continuation of `await ensureThree()` for run `r`: when it resolves
the body goes on, to its end or until it throws at `throwsAt`; when it rejects
the `catch` runs. -/
def depEvent (r : ℕ) (E : Engine) (throwsAt : Option SetupThrow) :
    Except String Window → Event
  | .ok _ =>
    match throwsAt with
    | none => .depResolved r E
    | some p => .setupThrew r E p
  | .error _ => .depRejected r

/-- Whether run `x` owns a part of a render context of the card: a canvas in
the page, an interval, an animation loop, a resize listener, a load in flight,
or a slot of `threeRef.current`. -/
def Card.hasContext (s : Card) (x : ℕ) : Prop :=
  x ∈ s.attached ∨ x ∈ s.timers ∨ x ∈ s.loops ∨ x ∈ s.listeners ∨ x ∈ s.loads ∨
    x ∈ s.fallbacks ∨ s.threeRef.context = some x ∨ s.threeRef.raf = some x ∨
    s.threeRef.progressTimer = some x ∨ s.threeRef.cleanup = some x

instance (s : Card) (x : ℕ) : Decidable (s.hasContext x) := by
  unfold Card.hasContext
  infer_instance

/-- The bookkeeping of intervals: an active interval was started by a run
that has been started and is no longer awaited, and the interval of the latest
run, while active, is the one stored in `threeRef.current.progressTimer`. -/
def Card.TimerStored (s : Card) : Prop :=
  ∀ t ∈ s.timers, t ≤ s.run ∧ t ∉ s.pending ∧
    (t = s.run → s.threeRef.progressTimer = some t)

/-- The bookkeeping of pending runs: a run whose `ensureThree` is still
awaited owns nothing, and every run that owns something or is awaited has been
started. -/
def Card.PendingFresh (s : Card) : Prop :=
  (∀ r ∈ s.pending, ¬ s.hasContext r ∧ r ≤ s.run) ∧ (∀ x, s.hasContext x → x ≤ s.run)

/-- A run that has been started, is no longer awaited and owns nothing. -/
def Card.Settled (s : Card) (r : ℕ) : Prop :=
  r ≤ s.run ∧ r ∉ s.pending ∧ ¬ s.hasContext r

/-- The ownership of the stored cleanup closure: it is the one of the live
effect run. -/
def Card.CleanupOwned (s : Card) : Prop :=
  ∀ c, s.threeRef.cleanup = some c → s.live = true ∧ c = s.run

/-- A scene without a group node: the children of the root are two meshes
with no children of their own. -/
def flatRoot : Object3D :=
  .mk 0 Vec3.zero none [.mk 1 ⟨1, 0, 0⟩ none [], .mk 2 ⟨-1, 0, 0⟩ none []]

/-! ## The slider of the card -/

/-- JavaScript's `Math.round`: the nearest integer, halves rounded up. -/
def jsRound (x : ℚ) : ℤ := ⌊x + 1 / 2⌋

/-- The factor the slider handlers pass to `setExplode` for the input value
`v`: `Math.max(0, Math.min(1, Number(e.target.value) / 100))`. -/
def sliderFactor (v : ℚ) : ℚ := max 0 (min 1 (v / 100))

/-- The value the slider displays: `Math.round(explode * 100)`. -/
def sliderValue (explode : ℚ) : ℤ := jsRound (explode * 100)

/-! ## The mesh gallery section (`MeshGenSection`) -/

/-- A record of the mesh manifest. -/
structure MeshItem where
  id : String
  label : String
  src : String

/-- The outcome of fetching the manifest: the request fails, the body does not
parse as JSON, or it parses to `null` (`none`) or to a list of records. -/
inductive ManifestFetch where
  | unreachable
  | parseFailure
  | json (data : Option (List MeshItem))

/-- The item list the effect of `MeshGenSection` stores:
`.then((data) => setItems(data || [])).catch(() => setItems([]))`. -/
def manifestItems : ManifestFetch → List MeshItem
  | .unreachable => []
  | .parseFailure => []
  | .json (some items) => items
  | .json none => []

/-- What the section renders below its title: the grid of cards or the
placeholder paragraph. -/
inductive SectionView where
  | grid (cards : List MeshItem)
  | placeholder (text : String)

/-- The conditional `items.length ? <grid of cards> : <placeholder>`. -/
def renderSection (items : List MeshItem) : SectionView :=
  if items.length ≠ 0 then .grid items else .placeholder "Loading mesh list…"

/-- JavaScript's `%` on integers: the remainder has the sign of the dividend. -/
def jsMod (a b : ℤ) : ℤ := Int.tmod a b

namespace EditingSection

/-- The updater of `prev`: `(i) => (i - 1 + items.length) % items.length`. -/
def prev (n i : ℤ) : ℤ := jsMod (i - 1 + n) n

/-- The updater of `next`: `(i) => (i + 1) % items.length`. -/
def next (n i : ℤ) : ℤ := jsMod (i + 1) n

end EditingSection

namespace RotatingText

/-- The index after `next()`, for `len = texts.length` and the current index
`i`: `handleIndexChange(nextIndex)` runs when `nextIndex` differs from `i`. -/
def next (len i : ℤ) (loop : Bool) : ℤ :=
  let nextIndex := if i = len - 1 then (if loop then 0 else i) else i + 1
  if nextIndex ≠ i then nextIndex else i

/-- The index after `previous()`. -/
def previous (len i : ℤ) (loop : Bool) : ℤ :=
  let prevIndex := if i = 0 then (if loop then len - 1 else i) else i - 1
  if prevIndex ≠ i then prevIndex else i

/-- The index after `jumpTo(index)`:
`validIndex = Math.max(0, Math.min(index, texts.length - 1))`. -/
def jumpTo (len i index : ℤ) : ℤ :=
  let validIndex := max 0 (min index (len - 1))
  if validIndex ≠ i then validIndex else i

/-- The index after `reset()`. -/
def reset (i : ℤ) : ℤ := if i ≠ 0 then 0 else i

end RotatingText

/-! ## Explode transform: lemmas -/

theorem jsOr_one_ne_zero (a : ℚ) : jsOr a 1 ≠ 0 := by
  unfold jsOr
  split_ifs with h
  · exact one_ne_zero
  · exact h

theorem jsOr_of_ne_zero (a b : ℚ) (h : a ≠ 0) : jsOr a b = a := by
  unfold jsOr
  rw [if_neg h]

theorem normalize_zero (sqrt : ℚ → ℚ) : Vec3.normalize sqrt Vec3.zero = Vec3.zero := by
  simp [Vec3.normalize, Vec3.divideScalar, Vec3.multiplyScalar, Vec3.zero]

theorem lengthSq_pos (c : Vec3) (h : c ≠ Vec3.zero) : 0 < c.lengthSq := by
  obtain ⟨x, y, z⟩ := c
  have hne : x ≠ 0 ∨ y ≠ 0 ∨ z ≠ 0 := by
    by_contra hcon
    push_neg at hcon
    exact h (by rw [hcon.1, hcon.2.1, hcon.2.2]; rfl)
  show 0 < x * x + y * y + z * z
  rcases hne with h1 | h1 | h1
  · nlinarith [mul_self_pos.mpr h1, mul_self_nonneg y, mul_self_nonneg z]
  · nlinarith [mul_self_pos.mpr h1, mul_self_nonneg x, mul_self_nonneg z]
  · nlinarith [mul_self_pos.mpr h1, mul_self_nonneg x, mul_self_nonneg y]

theorem normalize_unit (sqrt : ℚ → ℚ) (c : Vec3) (hc : c ≠ Vec3.zero)
    (hs : sqrt c.lengthSq * sqrt c.lengthSq = c.lengthSq) :
    (Vec3.normalize sqrt c).lengthSq = 1 := by
  have hpos := lengthSq_pos c hc
  have hne : sqrt c.lengthSq ≠ 0 := by
    intro h0
    rw [h0] at hs
    linarith
  simp only [Vec3.normalize, Vec3.length, jsOr_of_ne_zero _ 1 hne, Vec3.divideScalar,
    Vec3.multiplyScalar]
  show c.x * (1 / sqrt c.lengthSq) * (c.x * (1 / sqrt c.lengthSq))
      + c.y * (1 / sqrt c.lengthSq) * (c.y * (1 / sqrt c.lengthSq))
      + c.z * (1 / sqrt c.lengthSq) * (c.z * (1 / sqrt c.lengthSq)) = 1
  have hl : c.x * c.x + c.y * c.y + c.z * c.z = sqrt c.lengthSq * sqrt c.lengthSq := hs.symm
  field_simp
  linarith

theorem normalize_of_sq (c : Vec3) (s : ℚ) (hs : 0 < s) (h : c.lengthSq = s * s) :
    c.normalize Rat.sqrt = c.multiplyScalar (1 / s) := by
  have h1 : Rat.sqrt c.lengthSq = s := by rw [h, Rat.sqrt_eq, abs_of_pos hs]
  simp only [Vec3.normalize, Vec3.length, h1, jsOr, if_neg hs.ne', Vec3.divideScalar]

theorem explodePart_originalPosition (E : Engine) (k : ℚ) (part : Object3D) :
    (explodePart E k part).originalPosition = part.originalPosition := by
  cases part
  rfl

theorem explodePart_position (E : Engine) (k : ℚ) (part : Object3D) (o : Vec3)
    (h : part.originalPosition = some o) :
    (explodePart E k part).position
      = o.add ((Vec3.normalize E.sqrt (E.bboxCenter part)).multiplyScalar k) := by
  cases part with
  | mk i p o1 cs =>
    have ho : o1 = some o := h
    subst ho
    rfl

theorem add_multiplyScalar_zero (o d : Vec3) : o.add (d.multiplyScalar 0) = o := by
  simp [Vec3.add, Vec3.multiplyScalar]

theorem applyExplodeImmediate_not_ready (E : Engine) (data : ExplodeData) (v : ℚ)
    (h : data.ready = false) : applyExplodeImmediate E data v = data := by
  simp [applyExplodeImmediate, h]

theorem applyExplodeImmediate_ready_parts (E : Engine) (data : ExplodeData) (v : ℚ)
    (h : data.ready = true) :
    (applyExplodeImmediate E data v).parts
      = data.parts.map (explodePart E (jsOr data.radius 1 * (6 / 10) * v)) := by
  unfold applyExplodeImmediate
  split_ifs with h1
  · have hl : data.parts = [] := by simpa [h] using h1
    simp [hl]
  · rfl

theorem applyExplodeImmediate_ready (E : Engine) (data : ExplodeData) (v : ℚ) :
    (applyExplodeImmediate E data v).ready = data.ready := by
  unfold applyExplodeImmediate
  split_ifs <;> rfl

theorem applyExplodeImmediate_radius (E : Engine) (data : ExplodeData) (v : ℚ) :
    (applyExplodeImmediate E data v).radius = data.radius := by
  unfold applyExplodeImmediate
  split_ifs <;> rfl

theorem applyExplodeImmediate_original (E : Engine) (data : ExplodeData) (v : ℚ) :
    (applyExplodeImmediate E data v).parts.map Object3D.originalPosition
      = data.parts.map Object3D.originalPosition := by
  unfold applyExplodeImmediate
  split_ifs
  · rfl
  · simp only [List.map_map]
    exact List.map_congr_left (fun p _ => explodePart_originalPosition E _ p)

theorem explodeCalls_ready (calls : List (Engine × ℚ)) :
    ∀ data : ExplodeData, (explodeCalls data calls).ready = data.ready := by
  induction calls with
  | nil => intro data; rfl
  | cons c cs ih =>
    intro data
    show (explodeCalls (applyExplodeImmediate c.1 data c.2) cs).ready = data.ready
    rw [ih, applyExplodeImmediate_ready]

theorem explodeCalls_radius (calls : List (Engine × ℚ)) :
    ∀ data : ExplodeData, (explodeCalls data calls).radius = data.radius := by
  induction calls with
  | nil => intro data; rfl
  | cons c cs ih =>
    intro data
    show (explodeCalls (applyExplodeImmediate c.1 data c.2) cs).radius = data.radius
    rw [ih, applyExplodeImmediate_radius]

theorem explodeCalls_original (calls : List (Engine × ℚ)) :
    ∀ data : ExplodeData, (explodeCalls data calls).parts.map Object3D.originalPosition
      = data.parts.map Object3D.originalPosition := by
  induction calls with
  | nil => intro data; rfl
  | cons c cs ih =>
    intro data
    show (explodeCalls (applyExplodeImmediate c.1 data c.2) cs).parts.map
      Object3D.originalPosition = data.parts.map Object3D.originalPosition
    rw [ih, applyExplodeImmediate_original]

theorem explodeCalls_not_ready (calls : List (Engine × ℚ)) :
    ∀ data : ExplodeData, data.ready = false → explodeCalls data calls = data := by
  induction calls with
  | nil => intro data _; rfl
  | cons c cs ih =>
    intro data h
    show explodeCalls (applyExplodeImmediate c.1 data c.2) cs = data
    rw [applyExplodeImmediate_not_ready c.1 data c.2 h]
    exact ih data h

theorem extractParts_original (root : Object3D) :
    (extractParts root).map Object3D.originalPosition
      = (partsParent root).children.map (fun part => some part.position) := by
  unfold extractParts
  rw [List.map_map]
  exact List.map_congr_left (fun p _ => by cases p; rfl)

theorem extractParts_position (root : Object3D) :
    (extractParts root).map Object3D.position
      = (partsParent root).children.map Object3D.position := by
  unfold extractParts
  rw [List.map_map]
  exact List.map_congr_left (fun p _ => by cases p; rfl)

theorem radius_ne_zero (size : Vec3) : radius size ≠ 0 := jsOr_one_ne_zero _

theorem map_explodePart_position (E : Engine) (k : ℚ) (ps : List Object3D) :
    ∀ cs : List Object3D,
      ps.map Object3D.originalPosition = cs.map (fun c => some c.position) →
      (ps.map (explodePart E k)).map Object3D.position
        = List.zipWith (fun c p => c.position.add
            ((Vec3.normalize E.sqrt (E.bboxCenter p)).multiplyScalar k)) cs ps := by
  induction ps with
  | nil => intro cs _; cases cs <;> rfl
  | cons p ps ih =>
    intro cs h
    cases cs with
    | nil => simp at h
    | cons c cs =>
      simp only [List.map_cons, List.cons.injEq] at h
      simp only [List.map_cons, List.zipWith_cons_cons, List.cons.injEq]
      exact ⟨explodePart_position E k p c.position h.1, ih cs h.2⟩

theorem map_length_eq {α β γ : Type} (f : α → γ) (g : β → γ) (l1 : List α) (l2 : List β)
    (h : l1.map f = l2.map g) : l1.length = l2.length := by
  have := congrArg List.length h
  simpa using this

/-! ## Explode transform: the claims -/

/-- C1, evaluated on the code: for the asset `rotatedRoot`, whose primary group
is rotated by 90 degrees, the PartSet is ready with radius `1.6`; the first
`applyExplodeImmediate(1)` moves the two parts to `(0.28, 0.96, 0)` and
`(-0.28, -0.96, 0)`, and a second `applyExplodeImmediate(1)` moves them again,
to `(-0.6416, 0.2688, 0)` and `(0.6416, -0.2688, 0)`: the direction is taken
from the displaced part, so the call is not idempotent. -/
theorem explode_twice_drifts :
    (onSuccessExplodeData rotatedRoot rotatedBox).ready = true ∧
    (onSuccessExplodeData rotatedRoot rotatedBox).radius = 16 / 10 ∧
    (applyExplodeImmediate rotatedEngine
      (onSuccessExplodeData rotatedRoot rotatedBox) 1).parts.map Object3D.position
      = [⟨7 / 25, 24 / 25, 0⟩, ⟨-7 / 25, -24 / 25, 0⟩] ∧
    (applyExplodeImmediate rotatedEngine
      (applyExplodeImmediate rotatedEngine
        (onSuccessExplodeData rotatedRoot rotatedBox) 1) 1).parts.map Object3D.position
      = [⟨-401 / 625, 168 / 625, 0⟩, ⟨401 / 625, -168 / 625, 0⟩] := by
  have hr : radius rotatedBox.getSize = 16 / 10 := by
    simp [rotatedBox, radius, scale, maxDim, max3, target, jsOr,
      Box3.getSize, Box3.isEmpty, Vec3.sub]
    norm_num
  have h0 : onSuccessExplodeData rotatedRoot rotatedBox
      = ⟨true, [.mk 2 ⟨7 / 25, 0, 0⟩ (some ⟨7 / 25, 0, 0⟩) [],
          .mk 3 ⟨-7 / 25, 0, 0⟩ (some ⟨-7 / 25, 0, 0⟩) []], 16 / 10⟩ := by
    simp [onSuccessExplodeData, extractParts, partsParent, rotatedRoot, Object3D.children,
      Object3D.setOriginalPosition, Object3D.position, hr]
  have n1 : Vec3.normalize Rat.sqrt ⟨0, 7 / 25, 0⟩ = ⟨0, 1, 0⟩ := by
    rw [normalize_of_sq _ (7 / 25) (by norm_num) (by norm_num [Vec3.lengthSq])]
    norm_num [Vec3.multiplyScalar]
  have n2 : Vec3.normalize Rat.sqrt ⟨0, -(7 / 25), 0⟩ = ⟨0, -1, 0⟩ := by
    rw [normalize_of_sq _ (7 / 25) (by norm_num) (by norm_num [Vec3.lengthSq])]
    norm_num [Vec3.multiplyScalar]
  have n3 : Vec3.normalize Rat.sqrt ⟨-(24 / 25), 7 / 25, 0⟩ = ⟨-(24 / 25), 7 / 25, 0⟩ := by
    rw [normalize_of_sq _ 1 (by norm_num) (by norm_num [Vec3.lengthSq])]
    norm_num [Vec3.multiplyScalar]
  have n4 : Vec3.normalize Rat.sqrt ⟨24 / 25, -(7 / 25), 0⟩ = ⟨24 / 25, -(7 / 25), 0⟩ := by
    rw [normalize_of_sq _ 1 (by norm_num) (by norm_num [Vec3.lengthSq])]
    norm_num [Vec3.multiplyScalar]
  have h1 : applyExplodeImmediate rotatedEngine (onSuccessExplodeData rotatedRoot rotatedBox) 1
      = ⟨true, [.mk 2 ⟨7 / 25, 24 / 25, 0⟩ (some ⟨7 / 25, 0, 0⟩) [],
          .mk 3 ⟨-7 / 25, -24 / 25, 0⟩ (some ⟨-7 / 25, 0, 0⟩) []], 16 / 10⟩ := by
    rw [h0]
    simp [applyExplodeImmediate, explodePart, rotatedEngine, Object3D.position,
      Object3D.originalPosition, Object3D.setPosition, n1, n2, jsOr, Vec3.add,
      Vec3.multiplyScalar]
    norm_num [n1, n2]
  have h2 : applyExplodeImmediate rotatedEngine
      (applyExplodeImmediate rotatedEngine (onSuccessExplodeData rotatedRoot rotatedBox) 1) 1
      = ⟨true, [.mk 2 ⟨-401 / 625, 168 / 625, 0⟩ (some ⟨7 / 25, 0, 0⟩) [],
          .mk 3 ⟨401 / 625, -168 / 625, 0⟩ (some ⟨-7 / 25, 0, 0⟩) []], 16 / 10⟩ := by
    rw [h1]
    simp [applyExplodeImmediate, explodePart, rotatedEngine, Object3D.position,
      Object3D.originalPosition, Object3D.setPosition, n3, n4, jsOr, Vec3.add,
      Vec3.multiplyScalar]
    norm_num [n3, n4]
  rw [h2, h1, h0]
  simp [Object3D.position]

/-- C2: for the PartSet of any loaded asset, after any earlier sequence of
explode calls with any factors, `applyExplodeImmediate(0)` leaves every part at
its recorded `originalPosition`, which is the position the part had at load
time. -/
theorem explode_zero_restores (E : Engine) (root : Object3D) (box : Box3)
    (calls : List (Engine × ℚ)) :
    (∀ part ∈ (applyExplodeImmediate E
        (explodeCalls (onSuccessExplodeData root box) calls) 0).parts,
      part.originalPosition = some part.position) ∧
    (applyExplodeImmediate E
        (explodeCalls (onSuccessExplodeData root box) calls) 0).parts.map Object3D.position
      = (partsParent root).children.map Object3D.position := by
  have horig : (explodeCalls (onSuccessExplodeData root box) calls).parts.map
      Object3D.originalPosition
      = (partsParent root).children.map (fun c => some c.position) := by
    rw [explodeCalls_original]
    exact extractParts_original root
  have hpos : (applyExplodeImmediate E
        (explodeCalls (onSuccessExplodeData root box) calls) 0).parts.map Object3D.position
      = (partsParent root).children.map Object3D.position := by
    cases hready : (onSuccessExplodeData root box).ready with
    | false =>
      rw [explodeCalls_not_ready calls _ hready, applyExplodeImmediate_not_ready E _ 0 hready]
      exact extractParts_position root
    | true =>
      have hr : (explodeCalls (onSuccessExplodeData root box) calls).ready = true := by
        rw [explodeCalls_ready]
        exact hready
      rw [applyExplodeImmediate_ready_parts E _ 0 hr, mul_zero,
        map_explodePart_position E 0 _ _ horig]
      have hlen := map_length_eq _ _ _ _ horig
      generalize (explodeCalls (onSuccessExplodeData root box) calls).parts = ps at hlen
      generalize (partsParent root).children = cs at hlen
      induction cs generalizing ps with
      | nil => rfl
      | cons c cs ih =>
        cases ps with
        | nil => simp at hlen
        | cons p ps =>
          simp only [List.zipWith_cons_cons, List.map_cons, List.cons.injEq]
          exact ⟨add_multiplyScalar_zero _ _, ih ps (by simpa using hlen)⟩
  refine ⟨?_, hpos⟩
  have hall : (applyExplodeImmediate E
        (explodeCalls (onSuccessExplodeData root box) calls) 0).parts.map
          Object3D.originalPosition
      = (applyExplodeImmediate E
        (explodeCalls (onSuccessExplodeData root box) calls) 0).parts.map
          (fun part => some part.position) := by
    rw [applyExplodeImmediate_original, horig]
    have : (fun part : Object3D => some part.position) = some ∘ Object3D.position := rfl
    rw [this, ← List.map_map, ← List.map_map, hpos]
  intro part hpart
  exact List.map_inj_left.mp hall part hpart

/-- C3: for a loaded asset whose PartSet has at most one part,
`applyExplodeImmediate(factor)` leaves the explode data, and so every part
position, unchanged, for any factor and any sequence of such calls. -/
theorem explode_noop_few_parts (E : Engine) (root : Object3D) (box : Box3) (f : ℚ)
    (calls : List (Engine × ℚ))
    (h : (onSuccessExplodeData root box).parts.length ≤ 1) :
    applyExplodeImmediate E (onSuccessExplodeData root box) f = onSuccessExplodeData root box ∧
    explodeCalls (onSuccessExplodeData root box) calls = onSuccessExplodeData root box := by
  have hready : (onSuccessExplodeData root box).ready = false := by
    have h1 : (extractParts root).length ≤ 1 := h
    show decide ((extractParts root).length > 1) = false
    exact decide_eq_false (by omega)
  exact ⟨applyExplodeImmediate_not_ready E _ f hready, explodeCalls_not_ready calls _ hready⟩

/-- Witness of C3: the asset `singlePartRoot` with one part, factor `1`. -/
theorem explode_noop_few_parts_witness :
    (onSuccessExplodeData singlePartRoot rotatedBox).parts.length ≤ 1 ∧
    applyExplodeImmediate rotatedEngine (onSuccessExplodeData singlePartRoot rotatedBox) 1
      = onSuccessExplodeData singlePartRoot rotatedBox ∧
    explodeCalls (onSuccessExplodeData singlePartRoot rotatedBox) [(rotatedEngine, 1 / 2)]
      = onSuccessExplodeData singlePartRoot rotatedBox :=
  ⟨by simp [onSuccessExplodeData, extractParts, partsParent, singlePartRoot, Object3D.children],
    explode_noop_few_parts rotatedEngine singlePartRoot rotatedBox 1 [(rotatedEngine, 1 / 2)]
      (by simp [onSuccessExplodeData, extractParts, partsParent, singlePartRoot,
        Object3D.children])⟩

/-- C4: for a ready PartSet, in any state reached by earlier explode calls,
`applyExplodeImmediate(f)` puts each part at
`originalPosition + d * (radius * 0.6 * f)`, where `originalPosition` is the
part's position at load time and `d` is `normalize` of the part's current
world-space bounding-box centre; `normalize` gives the zero vector at the
origin, and a vector of squared length `1` for any other centre at which
`Math.sqrt` is exact. -/
theorem explode_position_formula (E : Engine) (root : Object3D) (box : Box3)
    (calls : List (Engine × ℚ)) (f : ℚ)
    (hready : (onSuccessExplodeData root box).ready = true) :
    (explodeCalls (onSuccessExplodeData root box) calls).parts.length
      = (partsParent root).children.length ∧
    (applyExplodeImmediate E
        (explodeCalls (onSuccessExplodeData root box) calls) f).parts.map Object3D.position
      = List.zipWith (fun c p => c.position.add
          ((Vec3.normalize E.sqrt (E.bboxCenter p)).multiplyScalar
            ((onSuccessExplodeData root box).radius * (6 / 10) * f)))
          (partsParent root).children
          (explodeCalls (onSuccessExplodeData root box) calls).parts ∧
    Vec3.normalize E.sqrt Vec3.zero = Vec3.zero ∧
    (∀ c : Vec3, c ≠ Vec3.zero → E.sqrt c.lengthSq * E.sqrt c.lengthSq = c.lengthSq →
      (Vec3.normalize E.sqrt c).lengthSq = 1) := by
  have horig : (explodeCalls (onSuccessExplodeData root box) calls).parts.map
      Object3D.originalPosition
      = (partsParent root).children.map (fun c => some c.position) := by
    rw [explodeCalls_original]
    exact extractParts_original root
  have hr : (explodeCalls (onSuccessExplodeData root box) calls).ready = true := by
    rw [explodeCalls_ready]
    exact hready
  refine ⟨map_length_eq _ _ _ _ horig, ?_, normalize_zero E.sqrt,
    fun c hc hs => normalize_unit E.sqrt c hc hs⟩
  have hrad : jsOr (onSuccessExplodeData root box).radius 1
      = (onSuccessExplodeData root box).radius :=
    jsOr_of_ne_zero _ 1 (radius_ne_zero box.getSize)
  rw [applyExplodeImmediate_ready_parts E _ f hr, explodeCalls_radius, hrad]
  exact map_explodePart_position E _ _ _ horig

/-- Witness of C4: the asset `rotatedRoot` after one earlier call with factor
`1/2`, exploded with factor `1`; the centre `(0, 0.28, 0)` has an exact square
root. -/
theorem explode_position_formula_witness :
    (onSuccessExplodeData rotatedRoot rotatedBox).ready = true ∧
    (⟨0, 7 / 25, 0⟩ : Vec3) ≠ Vec3.zero ∧
    rotatedEngine.sqrt (Vec3.lengthSq ⟨0, 7 / 25, 0⟩)
      * rotatedEngine.sqrt (Vec3.lengthSq ⟨0, 7 / 25, 0⟩) = Vec3.lengthSq ⟨0, 7 / 25, 0⟩ ∧
    (applyExplodeImmediate rotatedEngine
        (explodeCalls (onSuccessExplodeData rotatedRoot rotatedBox)
          [(rotatedEngine, 1 / 2)]) 1).parts.map Object3D.position
      = List.zipWith (fun c p => c.position.add
          ((Vec3.normalize rotatedEngine.sqrt (rotatedEngine.bboxCenter p)).multiplyScalar
            ((onSuccessExplodeData rotatedRoot rotatedBox).radius * (6 / 10) * 1)))
          (partsParent rotatedRoot).children
          (explodeCalls (onSuccessExplodeData rotatedRoot rotatedBox)
            [(rotatedEngine, 1 / 2)]).parts ∧
    (Vec3.normalize rotatedEngine.sqrt ⟨0, 7 / 25, 0⟩).lengthSq = 1 := by
  have hready : (onSuccessExplodeData rotatedRoot rotatedBox).ready = true := by
    simp [onSuccessExplodeData, extractParts, partsParent, rotatedRoot, Object3D.children]
  have hne : (⟨0, 7 / 25, 0⟩ : Vec3) ≠ Vec3.zero := by
    intro h
    have hy := congrArg Vec3.y h
    norm_num [Vec3.zero] at hy
  have hs : rotatedEngine.sqrt (Vec3.lengthSq ⟨0, 7 / 25, 0⟩)
      * rotatedEngine.sqrt (Vec3.lengthSq ⟨0, 7 / 25, 0⟩) = Vec3.lengthSq ⟨0, 7 / 25, 0⟩ := by
    have h1 : Vec3.lengthSq ⟨0, 7 / 25, 0⟩ = (7 / 25 : ℚ) * (7 / 25) := by
      norm_num [Vec3.lengthSq]
    show Rat.sqrt _ * Rat.sqrt _ = _
    rw [h1, Rat.sqrt_eq, abs_of_pos (by norm_num)]
  exact ⟨hready, hne, hs,
    (explode_position_formula rotatedEngine rotatedRoot rotatedBox [(rotatedEngine, 1 / 2)] 1
      hready).2.1,
    (explode_position_formula rotatedEngine rotatedRoot rotatedBox [(rotatedEngine, 1 / 2)] 1
      hready).2.2.2 ⟨0, 7 / 25, 0⟩ hne hs⟩

/-- C5: `applyExplodeImmediate` never changes a recorded `originalPosition`:
after any number of calls with any factors, the `originalPosition` of each part
is the position captured at load time, and one more call keeps it so. -/
theorem originalPosition_never_mutated (E : Engine) (root : Object3D) (box : Box3)
    (calls : List (Engine × ℚ)) (f : ℚ) :
    (explodeCalls (onSuccessExplodeData root box) calls).parts.map Object3D.originalPosition
      = (partsParent root).children.map (fun part => some part.position) ∧
    (applyExplodeImmediate E
        (explodeCalls (onSuccessExplodeData root box) calls) f).parts.map
          Object3D.originalPosition
      = (partsParent root).children.map (fun part => some part.position) := by
  have horig : (explodeCalls (onSuccessExplodeData root box) calls).parts.map
      Object3D.originalPosition
      = (partsParent root).children.map (fun c => some c.position) := by
    rw [explodeCalls_original]
    exact extractParts_original root
  exact ⟨horig, by rw [applyExplodeImmediate_original]; exact horig⟩

/-! ## Normalisation: the claims -/

/-- C10: for a loaded asset whose largest bounding-box dimension `m` is
positive, `scale = 1.6 / m`, the largest dimension of the scaled size is
exactly `1.6` (as are `maxDim * scale` and the recorded `radius`), and for
`m = 4` the scale is `0.4`. -/
theorem normalization_scale (box : Box3) (h : 0 < max3 box.getSize) :
    scale box.getSize = (16 / 10) / max3 box.getSize ∧
    max3 (box.getSize.multiplyScalar (scale box.getSize)) = 16 / 10 ∧
    maxDim box.getSize * scale box.getSize = 16 / 10 ∧
    radius box.getSize = 16 / 10 ∧
    (max3 box.getSize = 4 → scale box.getSize = 4 / 10) := by
  have hm : maxDim box.getSize = max3 box.getSize := jsOr_of_ne_zero _ 1 h.ne'
  have hs : scale box.getSize = (16 / 10) / max3 box.getSize := by
    unfold scale target
    rw [hm]
  have hpos : 0 ≤ scale box.getSize := by
    rw [hs]
    positivity
  have hmul : max3 box.getSize * scale box.getSize = 16 / 10 := by
    rw [hs]
    field_simp
    ring
  have hmax : max3 (box.getSize.multiplyScalar (scale box.getSize)) = 16 / 10 := by
    show max (max (box.getSize.x * scale box.getSize) (box.getSize.y * scale box.getSize))
      (box.getSize.z * scale box.getSize) = 16 / 10
    rw [← max_mul_of_nonneg _ _ hpos, ← max_mul_of_nonneg _ _ hpos]
    exact hmul
  refine ⟨hs, hmax, by rw [hm]; exact hmul, ?_, fun h4 => by rw [hs, h4]; norm_num⟩
  unfold radius
  rw [hmul]
  norm_num [jsOr]

/-- Witness of C10: a bounding box of size `4 x 2 x 1`. -/
theorem normalization_scale_witness :
    0 < max3 (Box3.getSize ⟨⟨0, 0, 0⟩, ⟨4, 2, 1⟩⟩) ∧
    max3 (Box3.getSize ⟨⟨0, 0, 0⟩, ⟨4, 2, 1⟩⟩) = 4 ∧
    scale (Box3.getSize ⟨⟨0, 0, 0⟩, ⟨4, 2, 1⟩⟩) = 4 / 10 := by
  have h4 : max3 (Box3.getSize ⟨⟨0, 0, 0⟩, ⟨4, 2, 1⟩⟩) = 4 := by
    norm_num [Box3.getSize, Box3.isEmpty, Vec3.sub, max3]
  have hpos : 0 < max3 (Box3.getSize ⟨⟨0, 0, 0⟩, ⟨4, 2, 1⟩⟩) := by
    rw [h4]
    norm_num
  exact ⟨hpos, h4, (normalization_scale ⟨⟨0, 0, 0⟩, ⟨4, 2, 1⟩⟩ hpos).2.2.2.2 h4⟩

/-! ## Progress: lemmas -/

theorem tick_ge (p : ℚ) : p ≤ tick p := by
  unfold tick
  split_ifs with h
  · exact le_min h.le (by linarith)
  · exact le_refl p

theorem tick_le_cap (p : ℚ) (h : p ≤ 9 / 10) : tick p ≤ 9 / 10 := by
  unfold tick
  split_ifs with h1
  · exact min_le_left _ _
  · exact h

theorem tick_fixed (p : ℚ) (h : 9 / 10 ≤ p) : tick p = p := by
  unfold tick
  rw [if_neg (not_lt.mpr h)]

theorem iterate_tick_le_cap (n : ℕ) : tick^[n] initialProgress ≤ 9 / 10 := by
  induction n with
  | zero => norm_num [initialProgress]
  | succ k ih =>
    rw [Function.iterate_succ_apply']
    exact tick_le_cap _ ih

theorem onProgress_known (xhr : ProgressEvent) (p : ℚ) (h : 0 < xhr.t) :
    onProgress xhr p = min 1 ((xhr.loaded : ℚ) / (xhr.t : ℚ)) := by
  unfold onProgress
  rw [if_pos h]

theorem onProgress_unknown (xhr : ProgressEvent) (p : ℚ) (h : xhr.t = 0) :
    onProgress xhr p = max p (1 / 2) := by
  unfold onProgress
  rw [if_neg (by omega)]
  split_ifs with h1
  · exact (max_eq_right h1.le).symm
  · exact (max_eq_left (not_lt.mp h1)).symm

theorem write_mem_unit (e : LoadEvent) (p : ℚ) (h0 : 0 ≤ p) (h1 : p ≤ 1) :
    0 ≤ e.write p ∧ e.write p ≤ 1 := by
  cases e with
  | tick =>
    refine ⟨le_trans h0 (tick_ge p), ?_⟩
    show tick p ≤ 1
    unfold tick
    split_ifs with h
    · exact le_trans (min_le_left _ _) (by norm_num)
    · exact h1
  | progress xhr =>
    show 0 ≤ onProgress xhr p ∧ onProgress xhr p ≤ 1
    unfold onProgress
    split_ifs with h h2
    · exact ⟨le_min zero_le_one (by positivity), min_le_left _ _⟩
    · constructor <;> norm_num
    · exact ⟨h0, h1⟩
  | success => exact ⟨zero_le_one, le_refl _⟩
  | failure => exact ⟨le_refl _, zero_le_one⟩

theorem scanl_write_mem_unit (es : List LoadEvent) :
    ∀ p : ℚ, 0 ≤ p → p ≤ 1 →
      ∀ v ∈ es.scanl (fun q e => e.write q) p, 0 ≤ v ∧ v ≤ 1 := by
  induction es with
  | nil =>
    intro p h0 h1 v hv
    simp only [List.scanl_nil, List.mem_singleton] at hv
    subst hv
    exact ⟨h0, h1⟩
  | cons e es ih =>
    intro p h0 h1 v hv
    simp only [List.scanl_cons, List.singleton_append, List.mem_cons] at hv
    rcases hv with rfl | hv
    · exact ⟨h0, h1⟩
    · exact ih (e.write p) (write_mem_unit e p h0 h1).1 (write_mem_unit e p h0 h1).2 v hv

theorem write_unknownTotal_le (e : LoadEvent) (p : ℚ) (he : e.unknownTotal = true)
    (h : p ≤ 9 / 10) : e.write p ≤ 9 / 10 := by
  cases e with
  | tick => exact tick_le_cap p h
  | progress xhr =>
    have ht : xhr.t = 0 := by simpa [LoadEvent.unknownTotal] using he
    show onProgress xhr p ≤ 9 / 10
    rw [onProgress_unknown xhr p ht]
    exact max_le h (by norm_num)
  | success => simp [LoadEvent.unknownTotal] at he
  | failure => simp [LoadEvent.unknownTotal] at he

theorem write_unknownProgress_le (e : LoadEvent) (p : ℚ) (he : e.unknownProgress = true)
    (h : p ≤ 1 / 2) : e.write p ≤ 1 / 2 := by
  cases e with
  | tick => simp [LoadEvent.unknownProgress] at he
  | progress xhr =>
    have ht : xhr.t = 0 := by simpa [LoadEvent.unknownProgress] using he
    show onProgress xhr p ≤ 1 / 2
    rw [onProgress_unknown xhr p ht]
    exact max_le h (le_refl _)
  | success => simp [LoadEvent.unknownProgress] at he
  | failure => simp [LoadEvent.unknownProgress] at he

theorem scanl_write_le (ok : LoadEvent → Bool) (cap : ℚ)
    (hstep : ∀ e p, ok e = true → p ≤ cap → LoadEvent.write e p ≤ cap)
    (es : List LoadEvent) :
    ∀ p : ℚ, p ≤ cap → (∀ e ∈ es, ok e = true) →
      ∀ v ∈ es.scanl (fun q e => e.write q) p, v ≤ cap := by
  induction es with
  | nil =>
    intro p hp _ v hv
    simp only [List.scanl_nil, List.mem_singleton] at hv
    subst hv
    exact hp
  | cons e es ih =>
    intro p hp hall v hv
    simp only [List.scanl_cons, List.singleton_append, List.mem_cons] at hv
    rcases hv with rfl | hv
    · exact hp
    · exact ih (e.write p) (hstep e p (hall e (List.mem_cons_self _ _)) hp)
        (fun e1 h1 => hall e1 (List.mem_cons_of_mem _ h1)) v hv

/-! ## Progress: the claims -/

/-- C6, evaluated on the code: after the setup and ten ticks of the synthetic
ticker the progress is `0.21`; an `onProgress` event reporting 1000 of 10000
bytes then writes `0.1`, so the written values are not non-decreasing. -/
theorem progress_not_monotone :
    progressWrites (List.replicate 10 LoadEvent.tick ++ [LoadEvent.progress ⟨1000, some 10000⟩])
      = [1 / 100, 3 / 100, 5 / 100, 7 / 100, 9 / 100, 11 / 100, 13 / 100, 15 / 100,
          17 / 100, 19 / 100, 21 / 100, 10 / 100]
    ∧ ¬ List.Chain' (· ≤ ·)
        (progressWrites
          (List.replicate 10 LoadEvent.tick ++ [LoadEvent.progress ⟨1000, some 10000⟩])) := by
  have h : progressWrites
      (List.replicate 10 LoadEvent.tick ++ [LoadEvent.progress ⟨1000, some 10000⟩])
      = [1 / 100, 3 / 100, 5 / 100, 7 / 100, 9 / 100, 11 / 100, 13 / 100, 15 / 100,
          17 / 100, 19 / 100, 21 / 100, 10 / 100] := by
    simp only [progressWrites, initialProgress, List.replicate, List.cons_append,
      List.nil_append, List.scanl_cons, List.scanl_nil, List.singleton_append,
      LoadEvent.write, tick, onProgress, ProgressEvent.t]
    norm_num
  refine ⟨h, ?_⟩
  rw [h]
  norm_num [List.chain'_cons]

/-- C7: every progress value written during a load attempt (setup, ticks,
`onProgress` events, success, failure, in any order) lies in `[0,1]`, and an
`onProgress` event with a known total `t > 0` stores `loaded / t` clamped to
`[0,1]`. -/
theorem progress_in_unit_interval (events : List LoadEvent) :
    (∀ v ∈ progressWrites events, 0 ≤ v ∧ v ≤ 1) ∧
    (∀ (xhr : ProgressEvent) (p : ℚ), 0 < xhr.t →
      onProgress xhr p = max 0 (min 1 ((xhr.loaded : ℚ) / (xhr.t : ℚ)))) := by
  refine ⟨scanl_write_mem_unit events initialProgress (by norm_num [initialProgress])
    (by norm_num [initialProgress]), ?_⟩
  intro xhr p h
  rw [onProgress_known xhr p h]
  exact (max_eq_right (le_min zero_le_one (by positivity))).symm

/-- Witness of C7: an `onProgress` event reporting 3 of 4 bytes. -/
theorem progress_in_unit_interval_witness :
    (0 : ℕ) < (ProgressEvent.mk 3 (some 4)).t ∧
    onProgress ⟨3, some 4⟩ (1 / 100) = max 0 (min 1 (((3 : ℕ) : ℚ) / ((4 : ℕ) : ℚ))) :=
  ⟨by decide, (progress_in_unit_interval []).2 ⟨3, some 4⟩ (1 / 100) (by decide)⟩

/-- C8 as stated fails: with no total size reported, 25 ticks of the synthetic
ticker after the setup write `0.51`, which exceeds `0.5`. -/
theorem unknown_total_exceeds_half :
    (∀ e ∈ List.replicate 25 LoadEvent.tick, e.unknownTotal = true) ∧
    ∃ v ∈ progressWrites (List.replicate 25 LoadEvent.tick), (1 : ℚ) / 2 < v := by
  refine ⟨fun e he => by rw [List.eq_of_mem_replicate he]; rfl, 51 / 100, ?_, by norm_num⟩
  simp only [progressWrites, initialProgress, List.replicate, List.scanl_cons, List.scanl_nil,
    List.singleton_append, LoadEvent.write, tick]
  norm_num

/-- C8, amended: while no total size is reported, no progress value written by
ticks and unknown-total `onProgress` events exceeds `0.9`; an unknown-total
`onProgress` event writes `max p 0.5`, so when only such events occur no value
exceeds `0.5`. -/
theorem unknown_total_bounds (events : List LoadEvent) :
    ((∀ e ∈ events, e.unknownTotal = true) →
      ∀ v ∈ progressWrites events, v ≤ 9 / 10) ∧
    (∀ (xhr : ProgressEvent) (p : ℚ), xhr.t = 0 → onProgress xhr p = max p (1 / 2)) ∧
    ((∀ e ∈ events, e.unknownProgress = true) →
      ∀ v ∈ progressWrites events, v ≤ 1 / 2) := by
  refine ⟨fun h => ?_, onProgress_unknown, fun h => ?_⟩
  · exact scanl_write_le LoadEvent.unknownTotal (9 / 10) write_unknownTotal_le events
      initialProgress (by norm_num [initialProgress]) h
  · exact scanl_write_le LoadEvent.unknownProgress (1 / 2) write_unknownProgress_le events
      initialProgress (by norm_num [initialProgress]) h

/-- Witness of the amended C8: a tick followed by an unknown-total event, and
an unknown-total event alone. -/
theorem unknown_total_bounds_witness :
    (∀ v ∈ progressWrites [LoadEvent.tick, LoadEvent.progress ⟨512, none⟩], v ≤ 9 / 10) ∧
    onProgress ⟨512, none⟩ (3 / 100) = max (3 / 100) (1 / 2) ∧
    (∀ v ∈ progressWrites [LoadEvent.progress ⟨512, some 0⟩], v ≤ 1 / 2) :=
  ⟨(unknown_total_bounds [LoadEvent.tick, LoadEvent.progress ⟨512, none⟩]).1
      (by simp [LoadEvent.unknownTotal, ProgressEvent.t]),
    (unknown_total_bounds []).2.1 ⟨512, none⟩ (3 / 100) rfl,
    (unknown_total_bounds [LoadEvent.progress ⟨512, some 0⟩]).2.2
      (by simp [LoadEvent.unknownProgress, ProgressEvent.t])⟩

/-- C9: a tick of the synthetic ticker never decreases the progress, keeps it
at most `0.9` when it was at most `0.9`, leaves it unchanged when it was at
least `0.9`, and ticks alone starting from `0.01` stay at most `0.9`, hence
below `1`. -/
theorem tick_monotone_capped :
    (∀ p : ℚ, p ≤ tick p) ∧
    (∀ p : ℚ, p ≤ 9 / 10 → tick p ≤ 9 / 10) ∧
    (∀ p : ℚ, 9 / 10 ≤ p → tick p = p) ∧
    (∀ n : ℕ, tick^[n] initialProgress ≤ 9 / 10 ∧ tick^[n] initialProgress < 1) :=
  ⟨tick_ge, tick_le_cap, tick_fixed,
    fun n => ⟨iterate_tick_le_cap n, lt_of_le_of_lt (iterate_tick_le_cap n) (by norm_num)⟩⟩

/-- Witness of C9: a tick at `0.89` gives `0.9`, a tick at `0.95` gives `0.95`. -/
theorem tick_monotone_capped_witness :
    ((89 : ℚ) / 100 ≤ 9 / 10 ∧ tick (89 / 100) ≤ 9 / 10) ∧
    ((9 : ℚ) / 10 ≤ 95 / 100 ∧ tick (95 / 100) = 95 / 100) :=
  ⟨⟨by norm_num, tick_monotone_capped.2.1 (89 / 100) (by norm_num)⟩,
    ⟨by norm_num, tick_monotone_capped.2.2.1 (95 / 100) (by norm_num)⟩⟩

/-! ## Camera framing and re-centring: lemmas and claims -/

theorem max3_nonneg_of_getSize (box : Box3) : 0 ≤ max3 box.getSize := by
  unfold Box3.getSize
  split_ifs with h
  · simp [max3, Vec3.zero]
  · have hx : ¬ box.max.x < box.min.x := by
      intro hlt
      exact h (by simp [Box3.isEmpty, hlt])
    exact le_trans (le_trans (sub_nonneg.mpr (not_lt.mp hx)) (le_max_left _ _))
      (le_max_left _ _)

theorem maxDim_pos (box : Box3) : 0 < maxDim box.getSize := by
  unfold maxDim jsOr
  split_ifs with h
  · exact one_pos
  · exact lt_of_le_of_ne (max3_nonneg_of_getSize box) (Ne.symm h)

theorem scale_pos (box : Box3) : 0 < scale box.getSize :=
  div_pos (by norm_num [target]) (maxDim_pos box)

theorem maxDim_mul_scale (box : Box3) : maxDim box.getSize * scale box.getSize = 16 / 10 := by
  unfold scale target
  field_simp [(maxDim_pos box).ne']
  ring

theorem max3_multiplyScalar (size : Vec3) (s : ℚ) (hs : 0 ≤ s) :
    max3 (size.multiplyScalar s) = max3 size * s := by
  show max (max (size.x * s) (size.y * s)) (size.z * s) = max (max size.x size.y) size.z * s
  rw [max_mul_of_nonneg _ _ hs, max_mul_of_nonneg _ _ hs]

/-- C11: the camera is placed at `(0.6 d, 0.3 d, d)` with
`d = maxDim * scale / (2 tan(fov / 2)) + 0.5`; for an asset of positive size
`maxDim * scale` is the largest dimension of the scaled asset and equals `1.6`,
so `d = 1.6 / (2 tan(fov / 2)) + 0.5` whatever the asset's original size. -/
theorem camera_framing (M : JsMath) (box : Box3) :
    cameraPosition M cameraFov box.getSize
      = ⟨6 / 10 * ((maxDim box.getSize * scale box.getSize)
            / (2 * M.tan (35 * (M.pi / 180) / 2)) + 5 / 10),
         3 / 10 * ((maxDim box.getSize * scale box.getSize)
            / (2 * M.tan (35 * (M.pi / 180) / 2)) + 5 / 10),
         (maxDim box.getSize * scale box.getSize)
            / (2 * M.tan (35 * (M.pi / 180) / 2)) + 5 / 10⟩ ∧
    (0 < max3 box.getSize →
      maxDim box.getSize * scale box.getSize
        = max3 (box.getSize.multiplyScalar (scale box.getSize)) ∧
      max3 (box.getSize.multiplyScalar (scale box.getSize)) = 16 / 10 ∧
      cameraDist M cameraFov box.getSize
        = (16 / 10) / (2 * M.tan (35 * (M.pi / 180) / 2)) + 5 / 10) ∧
    (∀ other : Box3, 0 < max3 box.getSize → 0 < max3 other.getSize →
      cameraPosition M cameraFov box.getSize = cameraPosition M cameraFov other.getSize) := by
  refine ⟨rfl, fun h => ?_, fun other _ _ => ?_⟩
  · have hm : maxDim box.getSize = max3 box.getSize := jsOr_of_ne_zero _ 1 h.ne'
    have h1 : max3 (box.getSize.multiplyScalar (scale box.getSize))
        = maxDim box.getSize * scale box.getSize := by
      rw [max3_multiplyScalar _ _ (scale_pos box).le, hm]
    refine ⟨h1.symm, by rw [h1]; exact maxDim_mul_scale box, ?_⟩
    show (maxDim box.getSize * scale box.getSize)
      / (2 * M.tan (35 * (M.pi / 180) / 2)) + 5 / 10 = _
    rw [maxDim_mul_scale]
  · simp only [cameraPosition, cameraDist, maxDim_mul_scale]

/-- Witness of C11: a bounding box of size `4 x 2 x 1` against one of size
`1 x 1 x 8`, with `Math.tan` and `Math.PI` replaced by the identity and `3`. -/
theorem camera_framing_witness :
    0 < max3 (Box3.getSize ⟨⟨0, 0, 0⟩, ⟨4, 2, 1⟩⟩) ∧
    0 < max3 (Box3.getSize ⟨⟨0, 0, 0⟩, ⟨1, 1, 8⟩⟩) ∧
    cameraDist ⟨fun q => q, 3⟩ cameraFov (Box3.getSize ⟨⟨0, 0, 0⟩, ⟨4, 2, 1⟩⟩)
      = (16 / 10) / (2 * (35 * ((3 : ℚ) / 180) / 2)) + 5 / 10 ∧
    cameraPosition ⟨fun q => q, 3⟩ cameraFov (Box3.getSize ⟨⟨0, 0, 0⟩, ⟨4, 2, 1⟩⟩)
      = cameraPosition ⟨fun q => q, 3⟩ cameraFov (Box3.getSize ⟨⟨0, 0, 0⟩, ⟨1, 1, 8⟩⟩) := by
  have h1 : 0 < max3 (Box3.getSize ⟨⟨0, 0, 0⟩, ⟨4, 2, 1⟩⟩) := by
    norm_num [Box3.getSize, Box3.isEmpty, Vec3.sub, max3]
  have h2 : 0 < max3 (Box3.getSize ⟨⟨0, 0, 0⟩, ⟨1, 1, 8⟩⟩) := by
    norm_num [Box3.getSize, Box3.isEmpty, Vec3.sub, max3]
  exact ⟨h1, h2, ((camera_framing ⟨fun q => q, 3⟩ ⟨⟨0, 0, 0⟩, ⟨4, 2, 1⟩⟩).2.1 h1).2.2,
    (camera_framing ⟨fun q => q, 3⟩ ⟨⟨0, 0, 0⟩, ⟨4, 2, 1⟩⟩).2.2 ⟨⟨0, 0, 0⟩, ⟨1, 1, 8⟩⟩ h1 h2⟩

theorem loaded_box (b : Box3) : RootTransform.loaded.box b = b := by
  obtain ⟨⟨a, b1, c⟩, ⟨d, e, f⟩⟩ := b
  simp [RootTransform.box, RootTransform.apply, RootTransform.loaded, Vec3.add,
    Vec3.multiplyScalar, Vec3.zero]

/-- C12: for an asset filling the box `b` under the loader's identity root
transform, normalisation sets the root's scale to `scale` and its position to
minus `scale` times the measured bounding-box centre, and the bounding box of
the result has its centre at the origin. -/
theorem normalization_centers (b : Box3) :
    (normalizeRoot RootTransform.loaded (RootTransform.loaded.box b)).scale
      = scale b.getSize ∧
    (normalizeRoot RootTransform.loaded (RootTransform.loaded.box b)).position
      = Vec3.zero.sub (b.getCenter.multiplyScalar (scale b.getSize)) ∧
    ((normalizeRoot RootTransform.loaded (RootTransform.loaded.box b)).box b).getCenter
      = Vec3.zero := by
  rw [loaded_box]
  refine ⟨rfl, rfl, ?_⟩
  have hs := scale_pos b
  obtain ⟨⟨a1, a2, a3⟩, ⟨c1, c2, c3⟩⟩ := b
  by_cases he : Box3.isEmpty ⟨⟨a1, a2, a3⟩, ⟨c1, c2, c3⟩⟩ = true
  · have hc : Box3.getCenter ⟨⟨a1, a2, a3⟩, ⟨c1, c2, c3⟩⟩ = Vec3.zero := by
      simp [Box3.getCenter, he]
    have he2 : Box3.isEmpty ((normalizeRoot RootTransform.loaded
        ⟨⟨a1, a2, a3⟩, ⟨c1, c2, c3⟩⟩).box ⟨⟨a1, a2, a3⟩, ⟨c1, c2, c3⟩⟩) = true := by
      simp only [Box3.isEmpty, Bool.or_eq_true, decide_eq_true_eq] at he ⊢
      simp only [normalizeRoot, hc, RootTransform.box, RootTransform.apply,
        RootTransform.loaded, Vec3.add, Vec3.sub, Vec3.multiplyScalar, Vec3.zero]
      rcases he with (h | h) | h
      · left; left; nlinarith
      · left; right; nlinarith
      · right; nlinarith
    simp [Box3.getCenter, he2]
  · have he' : Box3.isEmpty ⟨⟨a1, a2, a3⟩, ⟨c1, c2, c3⟩⟩ = false := by
      simpa using he
    have hne := he'
    simp only [Box3.isEmpty, Bool.or_eq_false_iff, decide_eq_false_iff_not, not_lt] at hne
    obtain ⟨⟨hx, hy⟩, hz⟩ := hne
    have he2 : Box3.isEmpty ((normalizeRoot RootTransform.loaded
        ⟨⟨a1, a2, a3⟩, ⟨c1, c2, c3⟩⟩).box ⟨⟨a1, a2, a3⟩, ⟨c1, c2, c3⟩⟩) = false := by
      simp only [Box3.isEmpty, Bool.or_eq_false_iff, decide_eq_false_iff_not, not_lt]
      simp only [normalizeRoot, RootTransform.box, RootTransform.apply,
        RootTransform.loaded, Vec3.add, Vec3.sub, Vec3.multiplyScalar, Vec3.zero]
      refine ⟨⟨?_, ?_⟩, ?_⟩ <;> nlinarith
    have hc : Box3.getCenter ⟨⟨a1, a2, a3⟩, ⟨c1, c2, c3⟩⟩
        = ⟨(a1 + c1) * (1 / 2), (a2 + c2) * (1 / 2), (a3 + c3) * (1 / 2)⟩ := by
      simp [Box3.getCenter, he', Vec3.add, Vec3.multiplyScalar]
    simp only [Box3.getCenter, he2, Bool.false_eq_true, if_false]
    simp only [normalizeRoot, hc, RootTransform.box, RootTransform.apply,
      RootTransform.loaded, Vec3.add, Vec3.sub, Vec3.multiplyScalar, Vec3.zero]
    rw [Vec3.mk.injEq]
    refine ⟨?_, ?_, ?_⟩ <;> ring

/-! ## Library loader: lemmas -/

theorem loadScript_ok (net : String → Bool) (u : String) (h : net u = true) :
    loadScript net u = .ok () := by
  simp [loadScript, h]

theorem loadScript_error (net : String → Bool) (u : String) (h : net u = false) :
    loadScript net u = .error ("Load failed: " ++ u) := by
  simp [loadScript, h]

theorem loadAnyFrom_cons_ok (net : String → Bool) (u : String) (us : List String)
    (l : Option String) (h : net u = true) :
    loadAnyFrom net (u :: us) l = ([u], .ok ()) := by
  simp [loadAnyFrom, loadScript_ok net u h]

theorem loadAnyFrom_cons_error (net : String → Bool) (u : String) (us : List String)
    (l : Option String) (h : net u = false) :
    loadAnyFrom net (u :: us) l
      = (u :: (loadAnyFrom net us (some ("Load failed: " ++ u))).1,
          (loadAnyFrom net us (some ("Load failed: " ++ u))).2) := by
  simp [loadAnyFrom, loadScript_error net u h]

theorem loadAnyFrom_attempts (net : String → Bool) (urls : List String) :
    ∀ l : Option String, (loadAnyFrom net urls l).1
      = urls.takeWhile (fun u => !net u) ++ (urls.dropWhile (fun u => !net u)).take 1 := by
  induction urls with
  | nil => intro l; rfl
  | cons u us ih =>
    intro l
    cases h : net u with
    | true => simp [loadAnyFrom_cons_ok net u us l h, List.takeWhile, List.dropWhile, h]
    | false =>
      rw [loadAnyFrom_cons_error net u us l h]
      simp [List.takeWhile, List.dropWhile, h, ih]

theorem loadAnyFrom_ok_iff (net : String → Bool) (urls : List String) :
    ∀ l : Option String,
      (loadAnyFrom net urls l).2 = .ok () ↔ ∃ u ∈ urls, net u = true := by
  induction urls with
  | nil => intro l; simp [loadAnyFrom]
  | cons u us ih =>
    intro l
    cases h : net u with
    | true => simp [loadAnyFrom_cons_ok net u us l h, h]
    | false =>
      rw [loadAnyFrom_cons_error net u us l h]
      simp [ih, h]

theorem loadAnyFrom_all_fail (net : String → Bool) (urls : List String) :
    ∀ l : Option String, (∀ u ∈ urls, net u = false) →
      (loadAnyFrom net urls l).2 = .error (lastError urls l) := by
  induction urls with
  | nil => intro l _; cases l <;> rfl
  | cons u us ih =>
    intro l h
    have hu : net u = false := h u (List.mem_cons_self _ _)
    rw [loadAnyFrom_cons_error net u us l hu]
    show (loadAnyFrom net us (some ("Load failed: " ++ u))).2 = _
    rw [ih _ (fun v hv => h v (List.mem_cons_of_mem _ hv))]
    cases us with
    | nil => rfl
    | cons v vs =>
      have hl : (u :: v :: vs).getLast? = (v :: vs).getLast? := List.getLast?_cons_cons
      cases hv : (v :: vs).getLast? with
      | none => simp at hv
      | some x => simp [lastError, hl, hv]

theorem loadAny_error_iff (net : String → Bool) (urls : List String) :
    (∃ e, loadAny net urls = .error e) ↔ ∀ u ∈ urls, net u = false := by
  constructor
  · rintro ⟨e, he⟩ u hu
    by_contra hne
    have hok : loadAny net urls = .ok () :=
      (loadAnyFrom_ok_iff net urls none).mpr ⟨u, hu, by simpa using hne⟩
    rw [hok] at he
    cases he
  · intro h
    exact ⟨_, loadAnyFrom_all_fail net urls none h⟩

theorem ensureOne_ok_iff (net : String → Bool) (present : Bool) (urls : List String) :
    ensureOne net present urls = .ok () ↔ (present = true ∨ ∃ u ∈ urls, net u = true) := by
  unfold ensureOne
  cases present with
  | true => simp
  | false => simpa using loadAnyFrom_ok_iff net urls none

theorem ensureOne_error (net : String → Bool) (present : Bool) (urls : List String)
    (h : ¬ (present = true ∨ ∃ u ∈ urls, net u = true)) :
    ensureOne net present urls = .error (lastError urls none) := by
  push_neg at h
  obtain ⟨hp, hall⟩ := h
  have hp' : present = false := by simpa using hp
  unfold ensureOne
  rw [hp']
  exact loadAnyFrom_all_fail net urls none (fun u hu => by simpa using hall u hu)

theorem ensureThree_ok_iff (net : String → Bool) (w : Window) :
    ensureThree net w = .ok ⟨true, true, true, true, true⟩ ↔
      ∀ d ∈ dependencies w, d.1 = true ∨ ∃ u ∈ d.2, net u = true := by
  simp only [dependencies, List.mem_cons, List.mem_singleton, List.not_mem_nil, or_false,
    forall_eq_or_imp, forall_eq]
  rw [← ensureOne_ok_iff, ← ensureOne_ok_iff, ← ensureOne_ok_iff, ← ensureOne_ok_iff,
    ← ensureOne_ok_iff]
  unfold ensureThree
  cases h1 : ensureOne net w.three threeUrls <;>
  cases h2 : ensureOne net w.orbitControls orbitControlsUrls <;>
  cases h3 : ensureOne net w.gltfLoader gltfLoaderUrls <;>
  cases h4 : ensureOne net w.dracoLoader dracoLoaderUrls <;>
  cases h5 : ensureOne net w.meshoptDecoder meshoptUrls <;>
  simp [bind, Except.bind, pure, Except.pure]

theorem ensureThree_meshopt_error (net : String → Bool) (w : Window)
    (h1 : ensureOne net w.three threeUrls = .ok ())
    (h2 : ensureOne net w.orbitControls orbitControlsUrls = .ok ())
    (h3 : ensureOne net w.gltfLoader gltfLoaderUrls = .ok ())
    (h4 : ensureOne net w.dracoLoader dracoLoaderUrls = .ok ())
    (e : String) (h5 : ensureOne net w.meshoptDecoder meshoptUrls = .error e) :
    ensureThree net w = .error e := by
  unfold ensureThree
  simp [h1, h2, h3, h4, h5, bind, Except.bind]

theorem ensureThree_three_error (net : String → Bool) (w : Window)
    (e : String) (h1 : ensureOne net w.three threeUrls = .error e) :
    ensureThree net w = .error e := by
  unfold ensureThree
  simp [h1, bind, Except.bind]

theorem lastError_of_ne_nil (urls : List String) (hne : urls ≠ []) (l : Option String) :
    lastError urls l = "Load failed: " ++ urls.getLast hne := by
  unfold lastError
  rw [List.getLast?_eq_getLast _ hne]

theorem dependencies_ne_nil (w : Window) (d : Bool × List String) (hd : d ∈ dependencies w) :
    d.2 ≠ [] := by
  simp only [dependencies, List.mem_cons, List.mem_singleton, List.not_mem_nil, or_false] at hd
  rcases hd with h | h | h | h | h <;> rw [h] <;>
    simp [threeUrls, orbitControlsUrls, gltfLoaderUrls, dracoLoaderUrls, meshoptUrls]

theorem ensureThree_ok_or_error (net : String → Bool) (w : Window) :
    ensureThree net w = .ok ⟨true, true, true, true, true⟩ ∨
      ∃ d ∈ dependencies w, ensureThree net w = .error (lastError d.2 none) := by
  by_cases c1 : w.three = true ∨ ∃ u ∈ threeUrls, net u = true
  swap
  · exact Or.inr ⟨(w.three, threeUrls), by simp [dependencies],
      ensureThree_three_error net w _ (ensureOne_error net _ _ c1)⟩
  have h1 := (ensureOne_ok_iff net _ _).mpr c1
  by_cases c2 : w.orbitControls = true ∨ ∃ u ∈ orbitControlsUrls, net u = true
  swap
  · refine Or.inr ⟨(w.orbitControls, orbitControlsUrls), by simp [dependencies], ?_⟩
    unfold ensureThree
    simp [h1, ensureOne_error net _ _ c2, bind, Except.bind]
  have h2 := (ensureOne_ok_iff net _ _).mpr c2
  by_cases c3 : w.gltfLoader = true ∨ ∃ u ∈ gltfLoaderUrls, net u = true
  swap
  · refine Or.inr ⟨(w.gltfLoader, gltfLoaderUrls), by simp [dependencies], ?_⟩
    unfold ensureThree
    simp [h1, h2, ensureOne_error net _ _ c3, bind, Except.bind]
  have h3 := (ensureOne_ok_iff net _ _).mpr c3
  by_cases c4 : w.dracoLoader = true ∨ ∃ u ∈ dracoLoaderUrls, net u = true
  swap
  · refine Or.inr ⟨(w.dracoLoader, dracoLoaderUrls), by simp [dependencies], ?_⟩
    unfold ensureThree
    simp [h1, h2, h3, ensureOne_error net _ _ c4, bind, Except.bind]
  have h4 := (ensureOne_ok_iff net _ _).mpr c4
  by_cases c5 : w.meshoptDecoder = true ∨ ∃ u ∈ meshoptUrls, net u = true
  swap
  · exact Or.inr ⟨(w.meshoptDecoder, meshoptUrls), by simp [dependencies],
      ensureThree_meshopt_error net w h1 h2 h3 h4 _ (ensureOne_error net _ _ c5)⟩
  have h5 := (ensureOne_ok_iff net _ _).mpr c5
  left
  unfold ensureThree
  simp [h1, h2, h3, h4, h5, bind, Except.bind, pure, Except.pure]

/-! ## Library loader: the claims -/

/-- C13: `loadAny` attempts the sources in list order and stops at the first
one that loads (the attempted sources are the failing prefix of the list
followed by the first source that loads, if any); it resolves exactly when
some source loads and rejects exactly when every source fails; a two-entry
list whose first source fails and second loads resolves, both being
attempted. -/
theorem loadAny_first_success (net : String → Bool) (urls : List String) :
    loadAnyAttempts net urls
      = urls.takeWhile (fun u => !net u) ++ (urls.dropWhile (fun u => !net u)).take 1 ∧
    (loadAny net urls = .ok () ↔ ∃ u ∈ urls, net u = true) ∧
    ((∃ e, loadAny net urls = .error e) ↔ ∀ u ∈ urls, net u = false) ∧
    (∀ a b : String, net a = false → net b = true →
      loadAny net [a, b] = .ok () ∧ loadAnyAttempts net [a, b] = [a, b]) := by
  refine ⟨loadAnyFrom_attempts net urls none, loadAnyFrom_ok_iff net urls none,
    loadAny_error_iff net urls, fun a b ha hb => ⟨?_, ?_⟩⟩
  · exact (loadAnyFrom_ok_iff net [a, b] none).mpr ⟨b, by simp, hb⟩
  · show (loadAnyFrom net [a, b] none).1 = [a, b]
    rw [loadAnyFrom_cons_error net a [b] none ha, loadAnyFrom_cons_ok net b [] _ hb]

/-- Witness of C13: the sources of the engine core when only the second one
loads. -/
theorem loadAny_first_success_witness :
    (fun u : String => u == "https://unpkg.com/three@0.134.0/build/three.min.js")
      "https://cdnjs.cloudflare.com/ajax/libs/three.js/r134/three.min.js" = false ∧
    (fun u : String => u == "https://unpkg.com/three@0.134.0/build/three.min.js")
      "https://unpkg.com/three@0.134.0/build/three.min.js" = true ∧
    loadAny (fun u : String => u == "https://unpkg.com/three@0.134.0/build/three.min.js")
      ["https://cdnjs.cloudflare.com/ajax/libs/three.js/r134/three.min.js",
        "https://unpkg.com/three@0.134.0/build/three.min.js"] = .ok () ∧
    loadAnyAttempts (fun u : String => u == "https://unpkg.com/three@0.134.0/build/three.min.js")
      ["https://cdnjs.cloudflare.com/ajax/libs/three.js/r134/three.min.js",
        "https://unpkg.com/three@0.134.0/build/three.min.js"]
      = ["https://cdnjs.cloudflare.com/ajax/libs/three.js/r134/three.min.js",
        "https://unpkg.com/three@0.134.0/build/three.min.js"] :=
  ⟨by decide, by decide,
    (loadAny_first_success
      (fun u : String => u == "https://unpkg.com/three@0.134.0/build/three.min.js") []).2.2.2
      "https://cdnjs.cloudflare.com/ajax/libs/three.js/r134/three.min.js"
      "https://unpkg.com/three@0.134.0/build/three.min.js" (by decide) (by decide)⟩

/-- C14 as stated fails: when both sources of the engine core fail, `loadAny`
rejects with the error of the last source, `Load failed: <url>`, not with the
`All CDN sources failed` error, and so does `ensureThree`. -/
theorem all_fail_error_is_last_source :
    loadAny (fun _ => false) threeUrls
      = .error "Load failed: https://unpkg.com/three@0.134.0/build/three.min.js" ∧
    loadAny (fun _ => false) threeUrls ≠ .error "All CDN sources failed" ∧
    ensureThree (fun _ => false) ⟨false, false, false, false, false⟩
      = .error "Load failed: https://unpkg.com/three@0.134.0/build/three.min.js" := by
  have h : loadAny (fun _ => false) threeUrls
      = .error "Load failed: https://unpkg.com/three@0.134.0/build/three.min.js" := by
    show (loadAnyFrom (fun _ => false) threeUrls none).2 = _
    rw [loadAnyFrom_all_fail _ _ none (fun _ _ => rfl)]
    rfl
  refine ⟨h, ?_, ?_⟩
  · rw [h]
    intro hc
    injection hc with hc
    exact absurd hc (by decide)
  · exact ensureThree_three_error _ _ _ h

/-- C14, amended: when every source of a non-empty list fails, `loadAny`
rejects with the error of the last source attempted, `Load failed: <url>`;
the `All CDN sources failed` error is the rejection for the empty list only;
and `ensureThree` rejects with the last-source error of a dependency whenever
some dependency is absent and all its sources fail. -/
theorem loadAny_rejects_with_last_error (net : String → Bool) :
    (∀ (urls : List String) (hne : urls ≠ []), (∀ u ∈ urls, net u = false) →
      loadAny net urls = .error ("Load failed: " ++ urls.getLast hne)) ∧
    loadAny net [] = .error "All CDN sources failed" ∧
    (∀ w : Window, (∃ d ∈ dependencies w, d.1 = false ∧ ∀ u ∈ d.2, net u = false) →
      ∃ d ∈ dependencies w, ∃ hne : d.2 ≠ [],
        ensureThree net w = .error ("Load failed: " ++ d.2.getLast hne)) := by
  refine ⟨fun urls hne h => ?_, rfl, fun w hw => ?_⟩
  · show (loadAnyFrom net urls none).2 = _
    rw [loadAnyFrom_all_fail net urls none h, lastError_of_ne_nil urls hne]
  · rcases ensureThree_ok_or_error net w with hok | ⟨d, hd, he⟩
    · exfalso
      obtain ⟨d, hd, hfalse, hall⟩ := hw
      rcases (ensureThree_ok_iff net w).mp hok d hd with h | ⟨u, hu, hnet⟩
      · rw [hfalse] at h
        cases h
      · rw [hall u hu] at hnet
        cases hnet
    · refine ⟨d, hd, dependencies_ne_nil w d hd, ?_⟩
      rw [he, lastError_of_ne_nil]

/-- Witness of the amended C14: the sources of the engine core, and a page
with no dependency present, when nothing loads. -/
theorem loadAny_rejects_with_last_error_witness :
    loadAny (fun _ => false) threeUrls
      = .error ("Load failed: " ++ threeUrls.getLast (by decide)) ∧
    ∃ d ∈ dependencies ⟨false, false, false, false, false⟩, ∃ hne : d.2 ≠ [],
      ensureThree (fun _ => false) ⟨false, false, false, false, false⟩
        = .error ("Load failed: " ++ d.2.getLast hne) :=
  ⟨(loadAny_rejects_with_last_error (fun _ => false)).1 threeUrls (by decide) (fun _ _ => rfl),
    (loadAny_rejects_with_last_error (fun _ => false)).2.2 ⟨false, false, false, false, false⟩
      ⟨(false, threeUrls), by simp [dependencies], rfl, fun _ _ => rfl⟩⟩

/-! ## The card: lemmas -/

theorem filter_bne_none (l : List ℕ) :
    l.filter (fun x => some x != (none : Option ℕ)) = l := by
  rw [List.filter_eq_self]
  intro a _
  rfl

theorem filter_bne_some (l : List ℕ) (t : ℕ) :
    l.filter (fun x => some x != some t) = l.filter (fun x => x != t) := by
  apply List.filter_congr
  intro x _
  by_cases h : x = t
  · subst h
    show (some x != some x) = (x != x)
    rw [bne_self_eq_false, bne_self_eq_false]
  · have h1 : (x != t) = true := by simpa using h
    have h2 : (some x != some t) = true := by simpa using h
    rw [h1, h2]

theorem clearProgressTimer_eq (s : Card) :
    s.clearProgressTimer
      = { s with timers := s.timers.filter (fun x => some x != s.threeRef.progressTimer)
                 threeRef := { s.threeRef with progressTimer := none } } := by
  obtain ⟨p, lo, ex, er, ed, ⟨c, rf, pt, cl⟩, rn, lv, cp, pe, ls, fb, ti, lp, at1, li⟩ := s
  cases pt with
  | none => simp [Card.clearProgressTimer, filter_bne_none]
  | some t => simp [Card.clearProgressTimer, filter_bne_some]

theorem cancelRaf_eq (s : Card) :
    s.cancelRaf = { s with loops := s.loops.filter (fun x => some x != s.threeRef.raf) } := by
  obtain ⟨p, lo, ex, er, ed, ⟨c, rf, pt, cl⟩, rn, lv, cp, pe, ls, fb, ti, lp, at1, li⟩ := s
  cases rf with
  | none => simp [Card.cancelRaf, filter_bne_none]
  | some t => simp [Card.cancelRaf, filter_bne_some]

theorem mem_filter_bne (l : List ℕ) (o : Option ℕ) (x : ℕ) :
    x ∈ l.filter (fun y => some y != o) ↔ x ∈ l ∧ o ≠ some x := by
  rw [List.mem_filter]
  constructor
  · rintro ⟨h1, h2⟩
    refine ⟨h1, fun h => ?_⟩
    rw [h] at h2
    simp at h2
  · rintro ⟨h1, h2⟩
    refine ⟨h1, ?_⟩
    simp only [bne_iff_ne, ne_eq]
    exact fun h => h2 h.symm

theorem mem_filter_ne (l : List ℕ) (r x : ℕ) :
    x ∈ l.filter (fun y => y != r) ↔ x ∈ l ∧ x ≠ r := by
  simp [List.mem_filter]

theorem hasContext_setExplode (E : Engine) (s : Card) (v : ℚ) (x : ℕ) :
    (Card.setExplode E s v).hasContext x ↔ s.hasContext x := by
  unfold Card.setExplode
  split_ifs <;> rfl

theorem hasContext_cleanup (s : Card) (c x : ℕ) (h : (s.cleanup c).hasContext x) :
    s.hasContext x := by
  simp only [Card.cleanup, clearProgressTimer_eq, cancelRaf_eq, Card.hasContext,
    ThreeRef.empty, mem_filter_bne, mem_filter_ne] at h
  unfold Card.hasContext
  tauto

theorem hasContext_teardown (s : Card) (x : ℕ) (h : s.teardown.hasContext x) :
    s.hasContext x := by
  unfold Card.teardown at h
  cases hc : s.threeRef.cleanup with
  | none => simpa [hc, Card.hasContext] using h
  | some c =>
    simp only [hc] at h
    have h1 := hasContext_cleanup _ c x h
    simpa [Card.hasContext] using h1

theorem mem_filter_bne_some (l : List ℕ) (o : Option ℕ) (x : ℕ) :
    x ∈ l.filter (fun y => some y != o) → x ∈ l := fun h => ((mem_filter_bne l o x).mp h).1

theorem setExplode_explode (E : Engine) (s : Card) (v : ℚ) :
    (Card.setExplode E s v).explode = v := by
  unfold Card.setExplode
  split_ifs with h
  · exact h.symm
  · rfl

theorem setExplode_eq (E : Engine) (s : Card) (v : ℚ) :
    Card.setExplode E s v
      = { s with explode := v, explodeData := (Card.setExplode E s v).explodeData } := by
  unfold Card.setExplode
  split_ifs with h
  · rw [h]
  · rfl

theorem setup_disposed (E : Engine) (s : Card) (r : ℕ) (p : Option SetupThrow)
    (h : s.disposed r = true) : Card.setup E s r p = s := by
  unfold Card.setup
  rw [if_pos h]

theorem setup_eq (E : Engine) (s : Card) (r : ℕ) (h : s.disposed r = false) :
    Card.setup E s r none
      = { s with progress := 1 / 100, loading := true, explode := 0, errorMsg := none
                 explodeData := (Card.setExplode E s 0).explodeData
                 threeRef := ⟨some r, some r, some r, some r⟩
                 loads := r :: s.loads
                 timers := r :: s.timers
                 loops := r :: s.loops.filter (fun x => some x != s.threeRef.raf)
                 attached := r :: s.attached.filter (fun x => some x != s.threeRef.context)
                 listeners := r :: s.listeners } := by
  obtain ⟨p, lo, ex, er, ed, ⟨c, rf, pt, cl⟩, rn, lv, cp, pe, ls, fb, ti, lp, at1, li⟩ := s
  unfold Card.setup
  rw [if_neg (by simp [h])]
  simp only [Card.setupFinish, Card.setupStartLoad, Card.setupContext, Card.setupAttach,
    cancelRaf_eq, clearProgressTimer_eq]
  cases c with
  | none =>
    simp only [filter_bne_none]
    by_cases hex : (0 : ℚ) = ex
    · subst hex
      simp [Card.setExplode, filter_bne_none]
    · simp [Card.setExplode, hex, filter_bne_none]
  | some c0 =>
    simp only [filter_bne_some]
    by_cases hex : (0 : ℚ) = ex
    · subst hex
      simp [Card.setExplode, filter_bne_none]
    · simp [Card.setExplode, hex, filter_bne_none]

theorem setup_renderer_eq (E : Engine) (s : Card) (r : ℕ) (h : s.disposed r = false) :
    Card.setup E s r (some .renderer)
      = { s with loading := false, errorMsg := some "Lib load failed"
                 loops := s.loops.filter (fun x => some x != s.threeRef.raf)
                 attached := s.attached.filter (fun x => some x != s.threeRef.context) } := by
  obtain ⟨p, lo, ex, er, ed, ⟨c, rf, pt, cl⟩, rn, lv, cp, pe, ls, fb, ti, lp, at1, li⟩ := s
  unfold Card.setup
  rw [if_neg (by simp [h])]
  simp only [Card.catchLibFailed, cancelRaf_eq]
  cases c with
  | none => simp only [filter_bne_none]
  | some c0 => simp only [filter_bne_some]

theorem setup_controls_eq (E : Engine) (s : Card) (r : ℕ) (h : s.disposed r = false) :
    Card.setup E s r (some .controls)
      = { s with loading := false, errorMsg := some "Lib load failed"
                 loops := s.loops.filter (fun x => some x != s.threeRef.raf)
                 attached := r :: s.attached.filter (fun x => some x != s.threeRef.context) } := by
  obtain ⟨p, lo, ex, er, ed, ⟨c, rf, pt, cl⟩, rn, lv, cp, pe, ls, fb, ti, lp, at1, li⟩ := s
  unfold Card.setup
  rw [if_neg (by simp [h])]
  simp only [Card.catchLibFailed, Card.setupAttach, cancelRaf_eq]
  cases c with
  | none => simp only [filter_bne_none]
  | some c0 => simp only [filter_bne_some]

theorem setup_url_eq (E : Engine) (s : Card) (r : ℕ) (h : s.disposed r = false) :
    Card.setup E s r (some .url)
      = { s with progress := 1 / 100, loading := false, explode := 0
                 errorMsg := some "Lib load failed"
                 explodeData := (Card.setExplode E s 0).explodeData
                 threeRef := ⟨some r, none, some r, none⟩
                 timers := r :: s.timers
                 loops := s.loops.filter (fun x => some x != s.threeRef.raf)
                 attached := r :: s.attached.filter (fun x => some x != s.threeRef.context) } := by
  obtain ⟨p, lo, ex, er, ed, ⟨c, rf, pt, cl⟩, rn, lv, cp, pe, ls, fb, ti, lp, at1, li⟩ := s
  unfold Card.setup
  rw [if_neg (by simp [h])]
  simp only [Card.setupContext, Card.setupAttach, Card.catchLibFailed, cancelRaf_eq,
    clearProgressTimer_eq]
  cases c with
  | none =>
    simp only [filter_bne_none]
    by_cases hex : (0 : ℚ) = ex
    · subst hex
      simp [Card.setExplode, filter_bne_none]
    · simp [Card.setExplode, hex, filter_bne_none]
  | some c0 =>
    simp only [filter_bne_some]
    by_cases hex : (0 : ℚ) = ex
    · subst hex
      simp [Card.setExplode, filter_bne_none]
    · simp [Card.setExplode, hex, filter_bne_none]

theorem setup_frame_eq (E : Engine) (s : Card) (r : ℕ) (h : s.disposed r = false) :
    Card.setup E s r (some .frame)
      = { s with progress := 1 / 100, loading := false, explode := 0
                 errorMsg := some "Lib load failed"
                 explodeData := (Card.setExplode E s 0).explodeData
                 threeRef := ⟨some r, none, some r, none⟩
                 loads := r :: s.loads
                 timers := r :: s.timers
                 loops := s.loops.filter (fun x => some x != s.threeRef.raf)
                 attached := r :: s.attached.filter (fun x => some x != s.threeRef.context) } := by
  obtain ⟨p, lo, ex, er, ed, ⟨c, rf, pt, cl⟩, rn, lv, cp, pe, ls, fb, ti, lp, at1, li⟩ := s
  unfold Card.setup
  rw [if_neg (by simp [h])]
  simp only [Card.setupStartLoad, Card.setupContext, Card.setupAttach, Card.catchLibFailed,
    cancelRaf_eq, clearProgressTimer_eq]
  cases c with
  | none =>
    simp only [filter_bne_none]
    by_cases hex : (0 : ℚ) = ex
    · subst hex
      simp [Card.setExplode, filter_bne_none]
    · simp [Card.setExplode, hex, filter_bne_none]
  | some c0 =>
    simp only [filter_bne_some]
    by_cases hex : (0 : ℚ) = ex
    · subst hex
      simp [Card.setExplode, filter_bne_none]
    · simp [Card.setExplode, hex, filter_bne_none]

theorem cleanup_eq (s : Card) (c : ℕ) :
    s.cleanup c
      = { s with listeners := s.listeners.filter (fun x => x != c)
                 loops := s.loops.filter (fun x => some x != s.threeRef.raf)
                 attached := s.attached.filter (fun x => x != c)
                 timers := s.timers.filter (fun x => some x != s.threeRef.progressTimer)
                 threeRef := ThreeRef.empty } := by
  simp only [Card.cleanup, cancelRaf_eq, clearProgressTimer_eq]

theorem onSuccess_eq (E : Engine) (s : Card) (r : ℕ) (root : Object3D) (box : Box3)
    (h : s.disposed r = false) :
    Card.onSuccess E s r root box
      = { s with loads := s.loads.filter (fun x => x != r)
                 fallbacks := s.fallbacks.filter (fun x => x != r)
                 explodeData := applyExplodeImmediate E (onSuccessExplodeData root box) s.captured
                 timers := s.timers.filter (fun x => some x != s.threeRef.progressTimer)
                 threeRef := { s.threeRef with progressTimer := none }
                 progress := 1, loading := false, errorMsg := none } := by
  unfold Card.onSuccess
  simp only [Card.disposed] at h ⊢
  simp only [h, clearProgressTimer_eq]
  rfl

theorem onSuccess_disposed (E : Engine) (s : Card) (r : ℕ) (root : Object3D) (box : Box3)
    (h : s.disposed r = true) :
    Card.onSuccess E s r root box
      = { s with loads := s.loads.filter (fun x => x != r)
                 fallbacks := s.fallbacks.filter (fun x => x != r) } := by
  unfold Card.onSuccess
  simp only [Card.disposed] at h ⊢
  simp only [h]
  rfl

theorem fallbackFailed_eq (s : Card) (r : ℕ) (h : s.disposed r = false) :
    s.fallbackFailed r
      = { s with fallbacks := s.fallbacks.filter (fun x => x != r)
                 timers := s.timers.filter (fun x => some x != s.threeRef.progressTimer)
                 threeRef := { s.threeRef with progressTimer := none }
                 loading := false, progress := 0, errorMsg := some "Load failed" } := by
  unfold Card.fallbackFailed
  simp only [clearProgressTimer_eq, Card.disposed] at h ⊢
  simp only [h]
  rfl

theorem fallbackFailed_disposed (s : Card) (r : ℕ) (h : s.disposed r = true) :
    s.fallbackFailed r
      = { s with fallbacks := s.fallbacks.filter (fun x => x != r)
                 timers := s.timers.filter (fun x => some x != s.threeRef.progressTimer)
                 threeRef := { s.threeRef with progressTimer := none } } := by
  unfold Card.fallbackFailed
  simp only [clearProgressTimer_eq, Card.disposed] at h ⊢
  simp only [h]
  rfl

theorem disposed_false_iff (s : Card) (r : ℕ) :
    s.disposed r = false ↔ s.live = true ∧ r = s.run := by
  simp [Card.disposed]

theorem disposed_cases (s : Card) (r : ℕ) : s.disposed r = true ∨ s.disposed r = false := by
  cases s.disposed r <;> simp

theorem hasContext_setup (E : Engine) (s : Card) (r x : ℕ) (p : Option SetupThrow)
    (h : (Card.setup E s r p).hasContext x) : s.hasContext x ∨ x = r := by
  rcases disposed_cases s r with hd | hd
  · rw [setup_disposed E s r p hd] at h
    exact Or.inl h
  · have hp : p = none ∨ p = some .renderer ∨ p = some .controls ∨ p = some .url ∨
        p = some .frame := by
      cases p with
      | none => exact Or.inl rfl
      | some q => cases q <;> simp
    rcases hp with hp | hp | hp | hp | hp
    · rw [hp, setup_eq E s r hd] at h
      simp only [Card.hasContext, List.mem_cons, mem_filter_bne, Option.some.injEq] at h
      unfold Card.hasContext
      rcases h with h | h | h | h | h | h | h | h | h | h
      all_goals first
        | (right; omega)
        | tauto
    · rw [hp, setup_renderer_eq E s r hd] at h
      simp only [Card.hasContext, List.mem_cons, mem_filter_bne, Option.some.injEq] at h
      unfold Card.hasContext
      rcases h with h | h | h | h | h | h | h | h | h | h
      all_goals first
        | (right; omega)
        | tauto
    · rw [hp, setup_controls_eq E s r hd] at h
      simp only [Card.hasContext, List.mem_cons, mem_filter_bne, Option.some.injEq] at h
      unfold Card.hasContext
      rcases h with h | h | h | h | h | h | h | h | h | h
      all_goals first
        | (right; omega)
        | tauto
    · rw [hp, setup_url_eq E s r hd] at h
      simp only [Card.hasContext, List.mem_cons, mem_filter_bne, Option.some.injEq] at h
      unfold Card.hasContext
      rcases h with h | h | h | h | h | h | h | h | h | h
      all_goals first
        | (right; omega)
        | tauto
    · rw [hp, setup_frame_eq E s r hd] at h
      simp only [Card.hasContext, List.mem_cons, mem_filter_bne, Option.some.injEq] at h
      unfold Card.hasContext
      rcases h with h | h | h | h | h | h | h | h | h | h
      all_goals first
        | (right; omega)
        | tauto

theorem hasContext_onSuccess (E : Engine) (s : Card) (r : ℕ) (root : Object3D) (box : Box3)
    (x : ℕ) (h : (Card.onSuccess E s r root box).hasContext x) : s.hasContext x := by
  rcases disposed_cases s r with hd | hd
  · rw [onSuccess_disposed E s r root box hd] at h
    simp only [Card.hasContext, mem_filter_ne] at h
    unfold Card.hasContext
    tauto
  · rw [onSuccess_eq E s r root box hd] at h
    simp only [Card.hasContext, mem_filter_ne, mem_filter_bne] at h
    unfold Card.hasContext
    tauto

theorem hasContext_fallbackFailed (s : Card) (r x : ℕ)
    (h : (s.fallbackFailed r).hasContext x) : s.hasContext x := by
  rcases disposed_cases s r with hd | hd
  · rw [fallbackFailed_disposed s r hd] at h
    simp only [Card.hasContext, mem_filter_ne, mem_filter_bne] at h
    unfold Card.hasContext
    tauto
  · rw [fallbackFailed_eq s r hd] at h
    simp only [Card.hasContext, mem_filter_ne, mem_filter_bne] at h
    unfold Card.hasContext
    tauto

theorem setup_pending (E : Engine) (s : Card) (r : ℕ) (p : Option SetupThrow) :
    (Card.setup E s r p).pending = s.pending := by
  rcases disposed_cases s r with hd | hd
  · rw [setup_disposed E s r p hd]
  · cases p with
    | none => rw [setup_eq E s r hd]
    | some q =>
      cases q with
      | renderer => rw [setup_renderer_eq E s r hd]
      | controls => rw [setup_controls_eq E s r hd]
      | url => rw [setup_url_eq E s r hd]
      | frame => rw [setup_frame_eq E s r hd]

theorem setup_run (E : Engine) (s : Card) (r : ℕ) (p : Option SetupThrow) :
    (Card.setup E s r p).run = s.run := by
  rcases disposed_cases s r with hd | hd
  · rw [setup_disposed E s r p hd]
  · cases p with
    | none => rw [setup_eq E s r hd]
    | some q =>
      cases q with
      | renderer => rw [setup_renderer_eq E s r hd]
      | controls => rw [setup_controls_eq E s r hd]
      | url => rw [setup_url_eq E s r hd]
      | frame => rw [setup_frame_eq E s r hd]

theorem hasContext_step (s : Card) (e : Event) (x : ℕ) (hf : s.canFire e = true)
    (h : (s.step e).hasContext x) :
    s.hasContext x ∨ (x ∈ s.pending ∧ x ∉ (s.step e).pending) := by
  have hsetup : ∀ (E : Engine) (r : ℕ) (p : Option SetupThrow), r ∈ s.pending →
      (Card.setup E { s with pending := s.pending.filter (fun y => y != r) } r p).hasContext x →
      s.hasContext x ∨ (x ∈ s.pending ∧
        x ∉ (Card.setup E { s with pending := s.pending.filter (fun y => y != r) } r p).pending) := by
    intro E r p hr h
    rcases hasContext_setup E _ r x p h with h1 | h1
    · exact Or.inl h1
    · refine Or.inr ⟨h1 ▸ hr, ?_⟩
      rw [setup_pending]
      intro hm
      exact ((mem_filter_ne _ _ _).mp hm).2 h1
  cases e with
  | mount => exact Or.inl h
  | teardown => exact Or.inl (hasContext_teardown s x h)
  | depResolved r E => exact hsetup E r none (by simpa [Card.canFire] using hf) h
  | depRejected r => exact Or.inl h
  | timerTick t0 => exact Or.inl h
  | frame l =>
    have hl : l ∈ s.loops := by simpa [Card.canFire] using hf
    left
    change (Card.frame s l).hasContext x at h
    simp only [Card.frame, Card.hasContext, Option.some.injEq] at h
    unfold Card.hasContext
    rcases h with h | h | h | h | h | h | h | h | h | h
    all_goals first
      | (right; right; left; rw [← h]; exact hl)
      | tauto
  | progress r xhr =>
    left
    change (Card.onProgress s r xhr).hasContext x at h
    unfold Card.onProgress at h
    split_ifs at h
    · exact h
    · exact h
  | directError r =>
    left
    change (Card.onError s r).hasContext x at h
    simp only [Card.onError, Card.hasContext, mem_filter_ne, List.mem_cons] at h
    have hr : r ∈ s.loads := by simpa [Card.canFire] using hf
    unfold Card.hasContext
    rcases h with h | h | h | h | h | h | h | h | h | h
    all_goals first
      | tauto
      | (rcases h with h | h
         · right; right; right; right; left; rw [h]; exact hr
         · tauto)
  | success r root box E => exact Or.inl (hasContext_onSuccess E s r root box x h)
  | fetchFailed r => exact Or.inl (hasContext_fallbackFailed s r x h)
  | parseFailed r => exact Or.inl (hasContext_fallbackFailed s r x h)
  | slider v E => exact Or.inl ((hasContext_setExplode E s _ x).mp h)
  | setupThrew r E p => exact hsetup E r (some p) (by simpa [Card.canFire] using hf) h

theorem teardown_none (s : Card) (h : s.threeRef.cleanup = none) :
    s.teardown = { s with live := false } := by
  unfold Card.teardown
  simp only [h]

theorem teardown_some (s : Card) (c : ℕ) (h : s.threeRef.cleanup = some c) :
    s.teardown
      = { s with live := false
                 listeners := s.listeners.filter (fun x => x != c)
                 loops := s.loops.filter (fun x => some x != s.threeRef.raf)
                 attached := s.attached.filter (fun x => x != c)
                 timers := s.timers.filter (fun x => some x != s.threeRef.progressTimer)
                 threeRef := ThreeRef.empty } := by
  unfold Card.teardown
  simp only [h, cleanup_eq]

theorem teardown_pending_run (s : Card) :
    s.teardown.pending = s.pending ∧ s.teardown.run = s.run := by
  cases hc : s.threeRef.cleanup with
  | none =>
    rw [teardown_none s hc]
    exact ⟨rfl, rfl⟩
  | some c =>
    rw [teardown_some s c hc]
    exact ⟨rfl, rfl⟩

theorem onSuccess_pending_run (E : Engine) (s : Card) (r : ℕ) (root : Object3D) (box : Box3) :
    (Card.onSuccess E s r root box).pending = s.pending ∧
    (Card.onSuccess E s r root box).run = s.run := by
  rcases disposed_cases s r with hd | hd
  · rw [onSuccess_disposed E s r root box hd]
    exact ⟨rfl, rfl⟩
  · rw [onSuccess_eq E s r root box hd]
    exact ⟨rfl, rfl⟩

theorem fallbackFailed_pending_run (s : Card) (r : ℕ) :
    (s.fallbackFailed r).pending = s.pending ∧ (s.fallbackFailed r).run = s.run := by
  rcases disposed_cases s r with hd | hd
  · rw [fallbackFailed_disposed s r hd]
    exact ⟨rfl, rfl⟩
  · rw [fallbackFailed_eq s r hd]
    exact ⟨rfl, rfl⟩

theorem onProgress_pending_run (s : Card) (r : ℕ) (xhr : ProgressEvent) :
    (s.onProgress r xhr).pending = s.pending ∧ (s.onProgress r xhr).run = s.run := by
  unfold Card.onProgress
  split_ifs <;> exact ⟨rfl, rfl⟩

theorem setExplode_pending_run (E : Engine) (s : Card) (v : ℚ) :
    (Card.setExplode E s v).pending = s.pending ∧ (Card.setExplode E s v).run = s.run := by
  rw [setExplode_eq]
  exact ⟨rfl, rfl⟩

theorem run_step (s : Card) (e : Event) : s.run ≤ (s.step e).run := by
  cases e with
  | mount => exact Nat.le_succ _
  | teardown => exact le_of_eq (teardown_pending_run s).2.symm
  | depResolved r E =>
    change s.run ≤ (Card.setup E _ r none).run
    rw [setup_run]
  | depRejected r => exact le_refl _
  | timerTick t0 => exact le_refl _
  | frame l => exact le_refl _
  | progress r xhr => exact le_of_eq (onProgress_pending_run s r xhr).2.symm
  | directError r => exact le_refl _
  | success r root box E => exact le_of_eq (onSuccess_pending_run E s r root box).2.symm
  | fetchFailed r => exact le_of_eq (fallbackFailed_pending_run s r).2.symm
  | parseFailed r => exact le_of_eq (fallbackFailed_pending_run s r).2.symm
  | slider v E => exact le_of_eq (setExplode_pending_run E s _).2.symm
  | setupThrew r E p =>
    change s.run ≤ (Card.setup E _ r (some p)).run
    rw [setup_run]

theorem pending_step (s : Card) (e : Event) (r : ℕ) (h : r ∈ (s.step e).pending) :
    r ∈ s.pending ∨ (e = .mount ∧ r = s.run + 1) := by
  cases e with
  | mount =>
    change r ∈ (s.run + 1) :: s.pending at h
    rcases List.mem_cons.mp h with h | h
    · exact Or.inr ⟨rfl, h⟩
    · exact Or.inl h
  | teardown =>
    change r ∈ s.teardown.pending at h
    rw [(teardown_pending_run s).1] at h
    exact Or.inl h
  | depResolved r0 E =>
    change r ∈ (Card.setup E _ r0 none).pending at h
    rw [setup_pending] at h
    exact Or.inl ((mem_filter_ne _ _ _).mp h).1
  | depRejected r0 =>
    change r ∈ s.pending.filter (fun x => x != r0) at h
    exact Or.inl ((mem_filter_ne _ _ _).mp h).1
  | timerTick t0 => exact Or.inl h
  | frame l => exact Or.inl h
  | progress r0 xhr =>
    change r ∈ (s.onProgress r0 xhr).pending at h
    rw [(onProgress_pending_run s r0 xhr).1] at h
    exact Or.inl h
  | directError r0 => exact Or.inl h
  | success r0 root box E =>
    change r ∈ (Card.onSuccess E s r0 root box).pending at h
    rw [(onSuccess_pending_run E s r0 root box).1] at h
    exact Or.inl h
  | fetchFailed r0 =>
    change r ∈ (s.fallbackFailed r0).pending at h
    rw [(fallbackFailed_pending_run s r0).1] at h
    exact Or.inl h
  | parseFailed r0 =>
    change r ∈ (s.fallbackFailed r0).pending at h
    rw [(fallbackFailed_pending_run s r0).1] at h
    exact Or.inl h
  | slider v E =>
    change r ∈ (Card.setExplode E s _).pending at h
    rw [(setExplode_pending_run E s _).1] at h
    exact Or.inl h
  | setupThrew r0 E p =>
    change r ∈ (Card.setup E _ r0 (some p)).pending at h
    rw [setup_pending] at h
    exact Or.inl ((mem_filter_ne _ _ _).mp h).1

theorem pendingFresh_initial : Card.initial.PendingFresh := by
  refine ⟨fun r hr => ?_, fun x hx => ?_⟩
  · simp [Card.initial] at hr
  · simp [Card.initial, Card.hasContext, ThreeRef.empty] at hx

theorem pendingFresh_step (s : Card) (e : Event) (hf : s.canFire e = true)
    (h : s.PendingFresh) : (s.step e).PendingFresh := by
  refine ⟨fun r hr => ?_, fun x hx => ?_⟩
  · rcases pending_step s e r hr with h1 | ⟨h1, h2⟩
    · refine ⟨fun hc => ?_, le_trans (h.1 r h1).2 (run_step s e)⟩
      rcases hasContext_step s e r hf hc with h3 | ⟨_, h3⟩
      · exact (h.1 r h1).1 h3
      · exact h3 hr
    · subst h1
      refine ⟨fun hc => ?_, le_of_eq h2⟩
      rcases hasContext_step s Event.mount r hf hc with h3 | ⟨h3, _⟩
      · have := h.2 r h3
        omega
      · have := (h.1 r h3).2
        omega
  · rcases hasContext_step s e x hf hx with h3 | ⟨h3, _⟩
    · exact le_trans (h.2 x h3) (run_step s e)
    · exact le_trans (h.1 x h3).2 (run_step s e)

theorem pendingFresh_exec (es : List Event) :
    ∀ s s1 : Card, s.PendingFresh → s.exec es = some s1 → s1.PendingFresh := by
  induction es with
  | nil =>
    intro s s1 h he
    simp only [Card.exec, Option.some.injEq] at he
    exact he ▸ h
  | cons e es ih =>
    intro s s1 h he
    unfold Card.exec at he
    split_ifs at he with hf
    exact ih (s.step e) s1 (pendingFresh_step s e hf h) he

theorem settled_step (s : Card) (e : Event) (r : ℕ) (hf : s.canFire e = true)
    (h : s.Settled r) : (s.step e).Settled r := by
  obtain ⟨h1, h2, h3⟩ := h
  refine ⟨le_trans h1 (run_step s e), fun hp => ?_, fun hc => ?_⟩
  · rcases pending_step s e r hp with h4 | ⟨_, h4⟩
    · exact h2 h4
    · omega
  · rcases hasContext_step s e r hf hc with h4 | ⟨h4, _⟩
    · exact h3 h4
    · exact h2 h4

theorem settled_exec (es : List Event) (r : ℕ) :
    ∀ s s1 : Card, s.Settled r → s.exec es = some s1 → s1.Settled r := by
  induction es with
  | nil =>
    intro s s1 h he
    simp only [Card.exec, Option.some.injEq] at he
    exact he ▸ h
  | cons e es ih =>
    intro s s1 h he
    unfold Card.exec at he
    split_ifs at he with hf
    exact ih (s.step e) s1 (settled_step s e r hf h) he

theorem timerStored_initial : Card.initial.TimerStored := by
  intro t ht
  simp [Card.initial] at ht

theorem timerStored_cleared (s s1 : Card) (h : s.TimerStored)
    (hrun : s1.run = s.run) (hpend : s1.pending = s.pending)
    (htim : ∀ t, t ∈ s1.timers → t ∈ s.timers ∧ s.threeRef.progressTimer ≠ some t) :
    s1.TimerStored := by
  intro t ht
  obtain ⟨h1, h2, h3⟩ := h t (htim t ht).1
  refine ⟨hrun ▸ h1, hpend ▸ h2, fun ht2 => ?_⟩
  exact absurd (h3 (by rw [ht2, hrun])) (htim t ht).2

theorem timerStored_setup (E : Engine) (s : Card) (r : ℕ) (p : Option SetupThrow)
    (hr : r ∈ s.pending) (h : s.TimerStored) :
    (Card.setup E { s with pending := s.pending.filter (fun x => x != r) } r p).TimerStored := by
  have hkeep : Card.TimerStored { s with pending := s.pending.filter (fun x => x != r) } := by
    intro t ht
    obtain ⟨h1, h2, h3⟩ := h t ht
    exact ⟨h1, fun hm => h2 ((mem_filter_ne _ _ _).mp hm).1, h3⟩
  rcases disposed_cases { s with pending := s.pending.filter (fun x => x != r) } r with hd | hd
  · rw [setup_disposed E _ r p hd]
    exact hkeep
  · obtain ⟨_, hrun⟩ := (disposed_false_iff _ _).mp hd
    have hrun1 : r = s.run := hrun
    have hnew : ∀ t, t ∈ r :: s.timers →
        t ≤ s.run ∧ t ∉ s.pending.filter (fun x => x != r) ∧
          (t = s.run → (some r : Option ℕ) = some t) := by
      intro t ht
      rcases List.mem_cons.mp ht with ht | ht
      · subst ht
        exact ⟨le_of_eq hrun1, fun hm => ((mem_filter_ne _ _ _).mp hm).2 rfl, fun _ => rfl⟩
      · obtain ⟨h1, h2, _⟩ := h t ht
        refine ⟨h1, fun hm => h2 ((mem_filter_ne _ _ _).mp hm).1, fun ht2 => ?_⟩
        exact absurd (by rw [ht2, ← hrun1]; exact hr) h2
    cases p with
    | none =>
      rw [setup_eq E _ r hd]
      exact hnew
    | some q =>
      cases q with
      | renderer =>
        rw [setup_renderer_eq E _ r hd]
        exact hkeep
      | controls =>
        rw [setup_controls_eq E _ r hd]
        exact hkeep
      | url =>
        rw [setup_url_eq E _ r hd]
        exact hnew
      | frame =>
        rw [setup_frame_eq E _ r hd]
        exact hnew

theorem timerStored_step (s : Card) (e : Event) (hf : s.canFire e = true)
    (h : s.TimerStored) : (s.step e).TimerStored := by
  cases e with
  | mount =>
    intro t ht
    obtain ⟨h1, h2, _⟩ := h t ht
    refine ⟨Nat.le_succ_of_le h1, fun hm => ?_, fun ht2 => ?_⟩
    · rcases List.mem_cons.mp hm with hm | hm
      · omega
      · exact h2 hm
    · have : t = s.run + 1 := ht2
      omega
  | teardown =>
    change (Card.teardown s).TimerStored
    cases hc : s.threeRef.cleanup with
    | none =>
      rw [teardown_none s hc]
      exact h
    | some c =>
      rw [teardown_some s c hc]
      exact timerStored_cleared s _ h rfl rfl
        (fun t ht => by
          have := (mem_filter_bne _ _ _).mp ht
          exact ⟨this.1, this.2⟩)
  | depResolved r E =>
    exact timerStored_setup E s r none (by simpa [Card.canFire] using hf) h
  | depRejected r =>
    intro t ht
    obtain ⟨h1, h2, h3⟩ := h t ht
    exact ⟨h1, fun hm => h2 ((mem_filter_ne _ _ _).mp hm).1, h3⟩
  | timerTick t0 => exact h
  | frame l => exact h
  | progress r xhr =>
    change (Card.onProgress s r xhr).TimerStored
    unfold Card.onProgress
    split_ifs
    · exact h
    · exact h
  | directError r => exact h
  | success r root box E =>
    change (Card.onSuccess E s r root box).TimerStored
    rcases disposed_cases s r with hd | hd
    · rw [onSuccess_disposed E s r root box hd]
      exact h
    · rw [onSuccess_eq E s r root box hd]
      exact timerStored_cleared s _ h rfl rfl
        (fun t ht => by
          have := (mem_filter_bne _ _ _).mp ht
          exact ⟨this.1, this.2⟩)
  | fetchFailed r =>
    change (Card.fallbackFailed s r).TimerStored
    rcases disposed_cases s r with hd | hd
    · rw [fallbackFailed_disposed s r hd]
      exact timerStored_cleared s _ h rfl rfl
        (fun t ht => by
          have := (mem_filter_bne _ _ _).mp ht
          exact ⟨this.1, this.2⟩)
    · rw [fallbackFailed_eq s r hd]
      exact timerStored_cleared s _ h rfl rfl
        (fun t ht => by
          have := (mem_filter_bne _ _ _).mp ht
          exact ⟨this.1, this.2⟩)
  | parseFailed r =>
    change (Card.fallbackFailed s r).TimerStored
    rcases disposed_cases s r with hd | hd
    · rw [fallbackFailed_disposed s r hd]
      exact timerStored_cleared s _ h rfl rfl
        (fun t ht => by
          have := (mem_filter_bne _ _ _).mp ht
          exact ⟨this.1, this.2⟩)
    · rw [fallbackFailed_eq s r hd]
      exact timerStored_cleared s _ h rfl rfl
        (fun t ht => by
          have := (mem_filter_bne _ _ _).mp ht
          exact ⟨this.1, this.2⟩)
  | slider v E =>
    change (Card.setExplode E s (max 0 (min 1 (v / 100)))).TimerStored
    rw [setExplode_eq]
    exact h
  | setupThrew r E p =>
    exact timerStored_setup E s r (some p) (by simpa [Card.canFire] using hf) h

theorem timerStored_exec (es : List Event) :
    ∀ s s1 : Card, s.TimerStored → s.exec es = some s1 → s1.TimerStored := by
  induction es with
  | nil =>
    intro s s1 h he
    simp only [Card.exec, Option.some.injEq] at he
    exact he ▸ h
  | cons e es ih =>
    intro s s1 h he
    unfold Card.exec at he
    split_ifs at he with hf
    exact ih (s.step e) s1 (timerStored_step s e hf h) he

/-! ## Library loader and card: the claims -/

/-- C15 as stated fails: with the engine core, `OrbitControls`, `GLTFLoader`
and `DRACOLoader` present and every source of `MeshoptDecoder` failing,
`ensureThree` rejects with the error of the decoder's last source, and the
card's first effect run ends in `Lib load failed` with no scene created. -/
theorem meshopt_failure_is_fatal :
    ensureThree (fun _ => false) ⟨true, true, true, true, false⟩
      = .error
        "Load failed: https://cdn.jsdelivr.net/npm/meshoptimizer@0.20.0/meshopt_decoder.js" ∧
    (Card.initial.exec [.mount, depEvent 1 rotatedEngine none
        (ensureThree (fun _ => false) ⟨true, true, true, true, false⟩)]).map Card.errorMsg
      = some (some "Lib load failed") ∧
    (Card.initial.exec [.mount, depEvent 1 rotatedEngine none
        (ensureThree (fun _ => false) ⟨true, true, true, true, false⟩)]).map Card.attached
      = some [] ∧
    (Card.initial.exec [.mount, depEvent 1 rotatedEngine none
        (ensureThree (fun _ => false) ⟨true, true, true, true, false⟩)]).map Card.threeRef
      = some ThreeRef.empty := by
  have h : ensureThree (fun _ => false) ⟨true, true, true, true, false⟩
      = .error
        "Load failed: https://cdn.jsdelivr.net/npm/meshoptimizer@0.20.0/meshopt_decoder.js" := by
    apply ensureThree_meshopt_error (fun _ => false) ⟨true, true, true, true, false⟩
      rfl rfl rfl rfl
    show (loadAnyFrom (fun _ => false) meshoptUrls none).2 = _
    rw [loadAnyFrom_all_fail _ _ none (fun _ _ => rfl)]
    rfl
  rw [h]
  exact ⟨rfl, rfl, rfl, rfl⟩

/-- C15, amended: the mesh-compression decoder is required like the other
dependencies.  When `MeshoptDecoder` is absent and every source of it fails
while the other four dependencies are present or load, `ensureThree` rejects
with the error of the decoder's last source and the continuation of the
effect run is the `catch`: `Lib load failed`, `loading = false`, no canvas
and `threeRef` untouched.  `ensureThree` resolves exactly when each of the
five dependencies is present or has a source that loads. -/
theorem meshopt_is_required (net : String → Bool) (w : Window) (s : Card) (r : ℕ)
    (E : Engine) (p : Option SetupThrow)
    (h1 : w.three = true ∨ ∃ u ∈ threeUrls, net u = true)
    (h2 : w.orbitControls = true ∨ ∃ u ∈ orbitControlsUrls, net u = true)
    (h3 : w.gltfLoader = true ∨ ∃ u ∈ gltfLoaderUrls, net u = true)
    (h4 : w.dracoLoader = true ∨ ∃ u ∈ dracoLoaderUrls, net u = true)
    (hm : w.meshoptDecoder = false) (hall : ∀ u ∈ meshoptUrls, net u = false) :
    ensureThree net w
      = .error
        "Load failed: https://cdn.jsdelivr.net/npm/meshoptimizer@0.20.0/meshopt_decoder.js" ∧
    depEvent r E p (ensureThree net w) = .depRejected r ∧
    (s.step (depEvent r E p (ensureThree net w))).errorMsg = some "Lib load failed" ∧
    (s.step (depEvent r E p (ensureThree net w))).loading = false ∧
    (s.step (depEvent r E p (ensureThree net w))).attached = s.attached ∧
    (s.step (depEvent r E p (ensureThree net w))).threeRef = s.threeRef ∧
    (∀ (net1 : String → Bool) (w1 : Window),
      ensureThree net1 w1 = .ok ⟨true, true, true, true, true⟩ ↔
        ∀ d ∈ dependencies w1, d.1 = true ∨ ∃ u ∈ d.2, net1 u = true) := by
  have h : ensureThree net w
      = .error
        "Load failed: https://cdn.jsdelivr.net/npm/meshoptimizer@0.20.0/meshopt_decoder.js" := by
    apply ensureThree_meshopt_error net w ((ensureOne_ok_iff net _ _).mpr h1)
      ((ensureOne_ok_iff net _ _).mpr h2) ((ensureOne_ok_iff net _ _).mpr h3)
      ((ensureOne_ok_iff net _ _).mpr h4)
    rw [hm]
    show (loadAnyFrom net meshoptUrls none).2 = _
    rw [loadAnyFrom_all_fail net meshoptUrls none hall]
    rfl
  rw [h]
  exact ⟨rfl, rfl, rfl, rfl, rfl, rfl, ensureThree_ok_iff⟩

/-- Witness of the amended C15: a page where only the decoder is missing and
nothing loads, for the first effect run of a card. -/
theorem meshopt_is_required_witness :
    ensureThree (fun _ => false) ⟨true, true, true, true, false⟩
      = .error
        "Load failed: https://cdn.jsdelivr.net/npm/meshoptimizer@0.20.0/meshopt_decoder.js" ∧
    (Card.initial.mount.step (depEvent 1 rotatedEngine none
        (ensureThree (fun _ => false) ⟨true, true, true, true, false⟩))).errorMsg
      = some "Lib load failed" :=
  ⟨(meshopt_is_required (fun _ => false) ⟨true, true, true, true, false⟩ Card.initial.mount 1
      rotatedEngine none (Or.inl rfl) (Or.inl rfl) (Or.inl rfl) (Or.inl rfl) rfl (fun _ _ => rfl)).1,
    (meshopt_is_required (fun _ => false) ⟨true, true, true, true, false⟩ Card.initial.mount 1
      rotatedEngine none (Or.inl rfl) (Or.inl rfl) (Or.inl rfl) (Or.inl rfl) rfl
      (fun _ _ => rfl)).2.2.1⟩

/-- C16: when `ensureThree` rejects, the continuation of effect run `r` is the
`catch`: it sets `errorMsg = 'Lib load failed'` and `loading = false` and
leaves `threeRef`, the canvases, loops, intervals, listeners and loads as they
were; and in every later state of the card, run `r` owns no canvas, loop,
interval, listener, load or slot of `threeRef`. -/
theorem lib_load_failed_no_context (r : ℕ) :
    (∀ (E : Engine) (p : Option SetupThrow) (e : String),
      depEvent r E p (.error e) = .depRejected r) ∧
    (∀ s : Card,
      (s.step (.depRejected r)).errorMsg = some "Lib load failed" ∧
      (s.step (.depRejected r)).loading = false ∧
      (s.step (.depRejected r)).threeRef = s.threeRef ∧
      (s.step (.depRejected r)).attached = s.attached ∧
      (s.step (.depRejected r)).loops = s.loops ∧
      (s.step (.depRejected r)).timers = s.timers ∧
      (s.step (.depRejected r)).listeners = s.listeners ∧
      (s.step (.depRejected r)).loads = s.loads) ∧
    (∀ (es1 es2 : List Event) (s1 s2 : Card),
      Card.initial.exec es1 = some s1 → s1.canFire (.depRejected r) = true →
      (s1.step (.depRejected r)).exec es2 = some s2 → ¬ s2.hasContext r) := by
  refine ⟨fun _ _ _ => rfl, fun s => ⟨rfl, rfl, rfl, rfl, rfl, rfl, rfl, rfl⟩, ?_⟩
  intro es1 es2 s1 s2 h1 hf h2
  have hp : r ∈ s1.pending := by simpa [Card.canFire] using hf
  have hfresh := pendingFresh_exec es1 _ s1 pendingFresh_initial h1
  have hset : (s1.step (.depRejected r)).Settled r := by
    refine ⟨(hfresh.1 r hp).2, fun hm => ?_, fun hc => (hfresh.1 r hp).1 hc⟩
    exact ((mem_filter_ne _ _ _).mp hm).2 rfl
  exact (settled_exec es2 r _ s2 hset h2).2.2

/-- Witness of C16: the first run's `ensureThree` rejects after the asset
changed; a second run then sets up and loads. -/
theorem lib_load_failed_no_context_witness :
    ∃ s1 s2 : Card,
      Card.initial.exec [.mount, .teardown, .mount] = some s1 ∧
      s1.canFire (.depRejected 1) = true ∧
      (s1.step (.depRejected 1)).exec
        [.depResolved 2 rotatedEngine, .success 2 rotatedRoot rotatedBox rotatedEngine]
        = some s2 ∧
      ¬ s2.hasContext 1 :=
  ⟨_, _, rfl, rfl, rfl,
    (lib_load_failed_no_context 1).2.2 [.mount, .teardown, .mount]
      [.depResolved 2 rotatedEngine, .success 2 rotatedRoot rotatedBox rotatedEngine]
      _ _ rfl rfl rfl⟩

/-- C17: in every state the card can reach, when the fallback of a run that
is not torn down fails, by the byte fetch throwing or by the parse reporting an
error, the card has `loading = false`, `progress = 0` and
`errorMsg = 'Load failed'`, and the interval of that run is cleared: an
interval still active then was started by an earlier run. -/
theorem load_failed_state (es : List Event) (s : Card) (r : ℕ)
    (hreach : Card.initial.exec es = some s) (hd : s.disposed r = false) :
    ((s.step (.fetchFailed r)).loading = false ∧
      (s.step (.fetchFailed r)).progress = 0 ∧
      (s.step (.fetchFailed r)).errorMsg = some "Load failed" ∧
      ∀ t ∈ (s.step (.fetchFailed r)).timers, t < r) ∧
    ((s.step (.parseFailed r)).loading = false ∧
      (s.step (.parseFailed r)).progress = 0 ∧
      (s.step (.parseFailed r)).errorMsg = some "Load failed" ∧
      ∀ t ∈ (s.step (.parseFailed r)).timers, t < r) := by
  have hown := timerStored_exec es _ s timerStored_initial hreach
  have hrun : r = s.run := ((disposed_false_iff s r).mp hd).2
  have ht : ∀ t ∈ (s.fallbackFailed r).timers, t < r := by
    rw [fallbackFailed_eq s r hd]
    intro t hm
    have hm2 := (mem_filter_bne _ _ _).mp hm
    obtain ⟨h1, _, h3⟩ := hown t hm2.1
    rw [hrun]
    exact lt_of_le_of_ne h1 (fun h => hm2.2 (h3 h))
  have h : (s.fallbackFailed r).loading = false ∧ (s.fallbackFailed r).progress = 0 ∧
      (s.fallbackFailed r).errorMsg = some "Load failed" := by
    rw [fallbackFailed_eq s r hd]
    exact ⟨rfl, rfl, rfl⟩
  exact ⟨⟨h.1, h.2.1, h.2.2, ht⟩, ⟨h.1, h.2.1, h.2.2, ht⟩⟩

/-- Witness of C17: the first run sets up, two ticks pass, the direct load
fails and then the fallback fetch fails. -/
theorem load_failed_state_witness :
    ∃ s : Card,
      Card.initial.exec [.mount, .depResolved 1 rotatedEngine, .timerTick 1, .timerTick 1,
        .directError 1] = some s ∧
      s.disposed 1 = false ∧ s.canFire (.fetchFailed 1) = true ∧
      (s.step (.fetchFailed 1)).loading = false ∧
      (s.step (.fetchFailed 1)).progress = 0 ∧
      (s.step (.fetchFailed 1)).errorMsg = some "Load failed" ∧
      ∀ t ∈ (s.step (.fetchFailed 1)).timers, t < 1 :=
  ⟨_, rfl, rfl, rfl,
    (load_failed_state [.mount, .depResolved 1 rotatedEngine, .timerTick 1, .timerTick 1,
      .directError 1] _ 1 rfl rfl).1⟩

/-- C18: when the direct load of run `r` fails and the fallback fetch and
parse then call `onSuccess`, both callbacks can fire in that order; if the run
is not torn down the card is Ready, `progress = 1`, `loading = false` and
`errorMsg = null`; if it is torn down the visible state is left as it was. -/
theorem fallback_success_ready (E : Engine) (s : Card) (r : ℕ) (root : Object3D)
    (box : Box3) :
    (r ∈ s.loads → s.canFire (.directError r) = true ∧
      (s.step (.directError r)).canFire (.success r root box E) = true) ∧
    (s.disposed r = false →
      ((s.step (.directError r)).step (.success r root box E)).progress = 1 ∧
      ((s.step (.directError r)).step (.success r root box E)).loading = false ∧
      ((s.step (.directError r)).step (.success r root box E)).errorMsg = none) ∧
    (s.disposed r = true →
      ((s.step (.directError r)).step (.success r root box E)).progress = s.progress ∧
      ((s.step (.directError r)).step (.success r root box E)).loading = s.loading ∧
      ((s.step (.directError r)).step (.success r root box E)).errorMsg = s.errorMsg ∧
      ((s.step (.directError r)).step (.success r root box E)).explode = s.explode) := by
  refine ⟨fun hr => ?_, fun hd => ?_, fun hd => ?_⟩
  · constructor
    · simpa [Card.canFire] using hr
    · simp [Card.canFire, Card.step, Card.onError]
  · have key : (s.step (.directError r)).step (.success r root box E)
        = Card.onSuccess E (s.onError r) r root box := rfl
    rw [key, onSuccess_eq E (s.onError r) r root box hd]
    exact ⟨rfl, rfl, rfl⟩
  · have key : (s.step (.directError r)).step (.success r root box E)
        = Card.onSuccess E (s.onError r) r root box := rfl
    rw [key, onSuccess_disposed E (s.onError r) r root box hd]
    exact ⟨rfl, rfl, rfl, rfl⟩

/-- Witness of C18: the first run sets up, a tick passes, the direct load
fails and the fallback parses the asset `rotatedRoot`. -/
theorem fallback_success_ready_witness :
    ∃ s : Card,
      Card.initial.exec [.mount, .depResolved 1 rotatedEngine, .timerTick 1] = some s ∧
      1 ∈ s.loads ∧ s.disposed 1 = false ∧
      (s.step (.directError 1)).canFire
        (.success 1 rotatedRoot rotatedBox rotatedEngine) = true ∧
      ((s.step (.directError 1)).step
        (.success 1 rotatedRoot rotatedBox rotatedEngine)).progress = 1 ∧
      ((s.step (.directError 1)).step
        (.success 1 rotatedRoot rotatedBox rotatedEngine)).loading = false ∧
      ((s.step (.directError 1)).step
        (.success 1 rotatedRoot rotatedBox rotatedEngine)).errorMsg = none :=
  ⟨_, rfl, by decide, rfl,
    ((fallback_success_ready rotatedEngine _ 1 rotatedRoot rotatedBox).1 (by decide)).2,
    (fallback_success_ready rotatedEngine _ 1 rotatedRoot rotatedBox).2.1 rfl⟩

/-- C19, evaluated on the code: the first run is torn down while its
`ensureThree` is awaited; the second run sets up and loads, the card is Ready
with no error; then the first run's `ensureThree` rejects and its `catch`,
which does not test `disposed`, sets `errorMsg = 'Lib load failed'` on the
loaded card.  The same happens right after a teardown with no later run. -/
theorem stale_rejection_mutates_state :
    (Card.initial.exec [.mount, .teardown, .mount, .depResolved 2 rotatedEngine,
        .success 2 rotatedRoot rotatedBox rotatedEngine]).map
      (fun s => (s.disposed 1, s.canFire (.depRejected 1), s.errorMsg, s.loading))
      = some (true, true, none, false) ∧
    (Card.initial.exec [.mount, .teardown, .mount, .depResolved 2 rotatedEngine,
        .success 2 rotatedRoot rotatedBox rotatedEngine, .depRejected 1]).map
      (fun s => (s.errorMsg, s.loading))
      = some (some "Lib load failed", false) ∧
    (Card.initial.exec [.mount, .teardown]).map
      (fun s => (s.disposed 1, s.errorMsg, s.loading)) = some (true, none, true) ∧
    (Card.initial.exec [.mount, .teardown, .depRejected 1]).map
      (fun s => (s.errorMsg, s.loading)) = some (some "Lib load failed", false) :=
  ⟨rfl, rfl, rfl, rfl⟩

/-- C20, evaluated on the code: the source of the asset is a `data:` URL, so
in the first effect run `new URL('./', url)` throws after `setInterval` and
before the cleanup closure is stored.  The `catch` ends the load attempt with
`Lib load failed` and clears nothing: the interval of run 1 is active and no
cleanup is stored.  The teardown of the run finds no cleanup and leaves the
interval active.  After the asset changed and the load of run 2 ended by
failure of the fallback, the interval of run 1 is still active and its next
tick moves the progress of the failed card from `0` to `0.02`; it is still
active after a run that loaded and was torn down.  The other ends of a load
attempt, success, failure of the fallback and teardown after a complete setup,
leave no interval. -/
theorem interval_survives_setup_throw :
    (Card.initial.exec [.mount, .setupThrew 1 rotatedEngine .url]).map
      (fun s => (s.errorMsg, s.loading, s.threeRef.cleanup, s.timers,
        s.canFire (.timerTick 1)))
      = some (some "Lib load failed", false, none, [1], true) ∧
    (Card.initial.exec [.mount, .setupThrew 1 rotatedEngine .url, .teardown]).map
      (fun s => (s.disposed 1, s.timers, s.canFire (.timerTick 1)))
      = some (true, [1], true) ∧
    (Card.initial.exec [.mount, .setupThrew 1 rotatedEngine .url, .teardown, .mount,
        .depResolved 2 rotatedEngine, .directError 2, .fetchFailed 2]).map
      (fun s => (s.disposed 1, s.errorMsg, s.progress, s.timers, s.canFire (.timerTick 1)))
      = some (true, some "Load failed", 0, [1], true) ∧
    (Card.initial.exec [.mount, .setupThrew 1 rotatedEngine .url, .teardown, .mount,
        .depResolved 2 rotatedEngine, .directError 2, .fetchFailed 2, .timerTick 1]).map
      (fun s => (s.errorMsg, s.progress, s.timers))
      = some (some "Load failed", 2 / 100, [1]) ∧
    (Card.initial.exec [.mount, .setupThrew 1 rotatedEngine .url, .teardown, .mount,
        .depResolved 2 rotatedEngine, .success 2 rotatedRoot rotatedBox rotatedEngine,
        .teardown]).map
      (fun s => (s.disposed 1, s.disposed 2, s.timers, s.canFire (.timerTick 1)))
      = some (true, true, [1], true) ∧
    (Card.initial.exec [.mount, .depResolved 1 rotatedEngine, .timerTick 1,
        .success 1 rotatedRoot rotatedBox rotatedEngine]).map Card.timers = some [] ∧
    (Card.initial.exec [.mount, .depResolved 1 rotatedEngine, .directError 1,
        .parseFailed 1]).map Card.timers = some [] ∧
    (Card.initial.exec [.mount, .depResolved 1 rotatedEngine, .timerTick 1,
        .teardown]).map Card.timers = some [] :=
  ⟨rfl, rfl, by with_unfolding_all rfl, by with_unfolding_all rfl, rfl, rfl, rfl, rfl⟩

/-! ## The card: ownership of the timer, explode factor, part set, teardown -/

theorem rotated_onSuccess :
    onSuccessExplodeData rotatedRoot rotatedBox
      = ⟨true, [.mk 2 ⟨7 / 25, 0, 0⟩ (some ⟨7 / 25, 0, 0⟩) [],
          .mk 3 ⟨-7 / 25, 0, 0⟩ (some ⟨-7 / 25, 0, 0⟩) []], 16 / 10⟩ := by
  have hr : radius rotatedBox.getSize = 16 / 10 := by
    simp [rotatedBox, radius, scale, maxDim, max3, target, jsOr,
      Box3.getSize, Box3.isEmpty, Vec3.sub]
    norm_num
  simp [onSuccessExplodeData, extractParts, partsParent, rotatedRoot, Object3D.children,
    Object3D.setOriginalPosition, Object3D.position, hr]

theorem rotated_explode_half :
    (applyExplodeImmediate rotatedEngine
      (onSuccessExplodeData rotatedRoot rotatedBox) (1 / 2)).parts.map Object3D.position
      = [⟨7 / 25, 12 / 25, 0⟩, ⟨-7 / 25, -12 / 25, 0⟩] := by
  have n1 : Vec3.normalize Rat.sqrt ⟨0, 7 / 25, 0⟩ = ⟨0, 1, 0⟩ := by
    rw [normalize_of_sq _ (7 / 25) (by norm_num) (by norm_num [Vec3.lengthSq])]
    norm_num [Vec3.multiplyScalar]
  have n2 : Vec3.normalize Rat.sqrt ⟨0, -(7 / 25), 0⟩ = ⟨0, -1, 0⟩ := by
    rw [normalize_of_sq _ (7 / 25) (by norm_num) (by norm_num [Vec3.lengthSq])]
    norm_num [Vec3.multiplyScalar]
  rw [rotated_onSuccess]
  simp [applyExplodeImmediate, explodePart, rotatedEngine, Object3D.position,
    Object3D.originalPosition, Object3D.setPosition, n1, n2, jsOr, Vec3.add,
    Vec3.multiplyScalar]
  norm_num [n1, n2]

theorem rotated_explode_zero :
    (applyExplodeImmediate rotatedEngine
      (onSuccessExplodeData rotatedRoot rotatedBox) 0).parts.map Object3D.position
      = [⟨7 / 25, 0, 0⟩, ⟨-7 / 25, 0, 0⟩] := by
  rw [rotated_onSuccess]
  simp [applyExplodeImmediate, explodePart, Object3D.position,
    Object3D.originalPosition, Object3D.setPosition, Vec3.add, Vec3.multiplyScalar]

/-- C21, evaluated on the code: run 1 sets up, its direct load fails and its
fallback fetch is in flight when the asset changes; run 2 sets up and starts
its own interval `2`, stored in `threeRef.current`; then run 1's fetch fails,
and its `catch`, which clears `threeRef.current.progressTimer` before testing
`disposed`, clears the interval of run 2 while run 2 is still loading. -/
theorem stale_failure_clears_new_timer :
    (Card.initial.exec [.mount, .depResolved 1 rotatedEngine, .directError 1, .teardown,
        .mount, .depResolved 2 rotatedEngine]).map
      (fun s => (s.disposed 1, s.disposed 2, s.timers, s.threeRef.progressTimer, s.loads,
        s.canFire (.fetchFailed 1)))
      = some (true, false, [2], some 2, [2], true) ∧
    (Card.initial.exec [.mount, .depResolved 1 rotatedEngine, .directError 1, .teardown,
        .mount, .depResolved 2 rotatedEngine, .fetchFailed 1]).map
      (fun s => (s.timers, s.threeRef.progressTimer, s.loads, s.loading))
      = some ([], none, [2], true) :=
  ⟨rfl, rfl⟩

/-- C22, evaluated on the code: the first asset loads and the user moves the
slider to 50; the asset changes; the second run's setup resets the
ExplodeFactor state to `0`, and when its load completes `onSuccess` passes the
value its closure captured, `0.5`, to the explode transform: the parts stand
at `(0.28, 0.48, 0)` and `(-0.28, -0.48, 0)` while the state, and the slider,
say `0`. -/
theorem success_applies_stale_factor :
    (Card.initial.exec [.mount, .depResolved 1 rotatedEngine,
        .success 1 rotatedRoot rotatedBox rotatedEngine, .slider 50 rotatedEngine,
        .teardown, .mount, .depResolved 2 rotatedEngine,
        .success 2 rotatedRoot rotatedBox rotatedEngine]).map
      (fun s => (s.explode, s.captured, s.loading)) = some (0, 1 / 2, false) ∧
    (Card.initial.exec [.mount, .depResolved 1 rotatedEngine,
        .success 1 rotatedRoot rotatedBox rotatedEngine, .slider 50 rotatedEngine,
        .teardown, .mount, .depResolved 2 rotatedEngine,
        .success 2 rotatedRoot rotatedBox rotatedEngine]).map
      (fun s => s.explodeData.parts.map Object3D.position)
      = some [⟨7 / 25, 12 / 25, 0⟩, ⟨-7 / 25, -12 / 25, 0⟩] ∧
    (applyExplodeImmediate rotatedEngine
      (onSuccessExplodeData rotatedRoot rotatedBox) 0).parts.map Object3D.position
      = [⟨7 / 25, 0, 0⟩, ⟨-7 / 25, 0, 0⟩] := by
  have hd : (Card.initial.exec [.mount, .depResolved 1 rotatedEngine,
        .success 1 rotatedRoot rotatedBox rotatedEngine, .slider 50 rotatedEngine,
        .teardown, .mount, .depResolved 2 rotatedEngine,
        .success 2 rotatedRoot rotatedBox rotatedEngine]).map
      (fun s => s.explodeData.parts.map Object3D.position)
      = some ((applyExplodeImmediate rotatedEngine
          (onSuccessExplodeData rotatedRoot rotatedBox) (1 / 2)).parts.map
            Object3D.position) := by
    with_unfolding_all rfl
  refine ⟨by with_unfolding_all rfl, ?_, rotated_explode_zero⟩
  rw [hd, rotated_explode_half]

/-- C23 as stated fails: the user chose the factor `0.5` on the first asset;
after the asset changed and the second run set up and loaded, the
ExplodeFactor state is `0`. -/
theorem asset_change_resets_factor :
    (Card.initial.exec [.mount, .depResolved 1 rotatedEngine,
        .success 1 rotatedRoot rotatedBox rotatedEngine, .slider 50 rotatedEngine]).map
      (fun s => s.explode) = some (1 / 2) ∧
    (Card.initial.exec [.mount, .depResolved 1 rotatedEngine,
        .success 1 rotatedRoot rotatedBox rotatedEngine, .slider 50 rotatedEngine,
        .teardown, .mount, .depResolved 2 rotatedEngine,
        .success 2 rotatedRoot rotatedBox rotatedEngine]).map
      (fun s => s.explode) = some 0 ∧
    (0 : ℚ) ≠ 1 / 2 :=
  ⟨by with_unfolding_all rfl, by with_unfolding_all rfl, by norm_num⟩

/-- C23, amended: changing the asset reference resets the ExplodeFactor.  For
a run `r` that is not torn down, whatever the state was, the setup that runs
to its end after `ensureThree` resolves sets the ExplodeFactor state to `0` and
`loading` to true, no slider input can happen while loading, and the state is still `0`
when the load completes. -/
theorem setup_resets_factor (s : Card) (r : ℕ) (E E1 : Engine) (root : Object3D)
    (box : Box3) (hd : s.disposed r = false) :
    (s.step (.depResolved r E)).explode = 0 ∧
    (s.step (.depResolved r E)).loading = true ∧
    (∀ (v : ℚ) (E2 : Engine), (s.step (.depResolved r E)).canFire (.slider v E2) = false) ∧
    ((s.step (.depResolved r E)).step (.success r root box E1)).explode = 0 := by
  have hd1 : Card.disposed { s with pending := s.pending.filter (fun x => x != r) } r
      = false := hd
  have h1 : s.step (.depResolved r E)
      = Card.setup E { s with pending := s.pending.filter (fun x => x != r) } r none := rfl
  have hd2 : (s.step (.depResolved r E)).disposed r = false := by
    rw [h1, setup_eq E _ r hd1]
    exact hd
  have h2 : (s.step (.depResolved r E)).step (.success r root box E1)
      = Card.onSuccess E1 (s.step (.depResolved r E)) r root box := rfl
  have he : (s.step (.depResolved r E)).explode = 0 := by
    rw [h1, setup_eq E _ r hd1]
  have hl : (s.step (.depResolved r E)).loading = true := by
    rw [h1, setup_eq E _ r hd1]
  refine ⟨he, hl, fun v E2 => ?_, ?_⟩
  · simp [Card.canFire, hl]
  · rw [h2, onSuccess_eq E1 _ r root box hd2]
    exact he

/-- Witness of the amended C23: the second run of a card whose factor was
`0.5`. -/
theorem setup_resets_factor_witness :
    ∃ s : Card,
      Card.initial.exec [.mount, .depResolved 1 rotatedEngine,
        .success 1 rotatedRoot rotatedBox rotatedEngine, .slider 50 rotatedEngine,
        .teardown, .mount] = some s ∧
      s.explode = 1 / 2 ∧ s.disposed 2 = false ∧
      (s.step (.depResolved 2 rotatedEngine)).explode = 0 ∧
      ((s.step (.depResolved 2 rotatedEngine)).step
        (.success 2 rotatedRoot rotatedBox rotatedEngine)).explode = 0 :=
  ⟨_, by with_unfolding_all rfl, by with_unfolding_all rfl, by with_unfolding_all rfl,
    (setup_resets_factor _ 2 rotatedEngine rotatedEngine rotatedRoot rotatedBox
      (by with_unfolding_all rfl)).1,
    (setup_resets_factor _ 2 rotatedEngine rotatedEngine rotatedRoot rotatedBox
      (by with_unfolding_all rfl)).2.2.2⟩

theorem applyExplodeImmediate_length (E : Engine) (data : ExplodeData) (v : ℚ) :
    (applyExplodeImmediate E data v).parts.length = data.parts.length := by
  unfold applyExplodeImmediate
  split_ifs
  · rfl
  · simp

/-- C24: the explode data `onSuccess` stores has `ready = true` exactly when
the extracted part list has more than one part, and so has the card's explode
data after a successful load, whose part list is as long as the list of
children of the parts' parent. -/
theorem ready_iff_more_than_one_part (E : Engine) (s : Card) (r : ℕ) (root : Object3D)
    (box : Box3) :
    ((onSuccessExplodeData root box).ready = true ↔ 1 < (extractParts root).length) ∧
    (s.disposed r = false →
      ((s.step (.success r root box E)).explodeData.ready = true ↔
        1 < (s.step (.success r root box E)).explodeData.parts.length) ∧
      (s.step (.success r root box E)).explodeData.parts.length
        = (partsParent root).children.length) := by
  have h0 : (onSuccessExplodeData root box).ready = true ↔ 1 < (extractParts root).length := by
    show decide ((extractParts root).length > 1) = true ↔ _
    simp
  refine ⟨h0, fun hd => ?_⟩
  have h1 : s.step (.success r root box E) = Card.onSuccess E s r root box := rfl
  rw [h1, onSuccess_eq E s r root box hd]
  show ((applyExplodeImmediate E (onSuccessExplodeData root box) s.captured).ready = true ↔
      1 < (applyExplodeImmediate E (onSuccessExplodeData root box) s.captured).parts.length) ∧
    (applyExplodeImmediate E (onSuccessExplodeData root box) s.captured).parts.length
      = (partsParent root).children.length
  rw [applyExplodeImmediate_ready, applyExplodeImmediate_length]
  refine ⟨h0, ?_⟩
  show (extractParts root).length = _
  simp [extractParts]

/-- Witness of C24: the asset `rotatedRoot` (two parts, ready) loaded by the
first run of a card. -/
theorem ready_iff_more_than_one_part_witness :
    ∃ s : Card,
      Card.initial.exec [.mount, .depResolved 1 rotatedEngine] = some s ∧
      s.disposed 1 = false ∧
      ((s.step (.success 1 rotatedRoot rotatedBox rotatedEngine)).explodeData.ready = true ↔
        1 < (s.step (.success 1 rotatedRoot rotatedBox rotatedEngine)).explodeData.parts.length) ∧
      (s.step (.success 1 rotatedRoot rotatedBox rotatedEngine)).explodeData.parts.length
        = (partsParent rotatedRoot).children.length :=
  ⟨_, rfl, rfl,
    (ready_iff_more_than_one_part rotatedEngine _ 1 rotatedRoot rotatedBox).2 rfl⟩

/-- C25, evaluated on the code: for the scene `flatRoot`, whose root has two
meshes as children and no group node, the parts' parent is the first mesh and
the PartSet is the list of that mesh's children, which is empty, not the two
children of the root; the PartSet is not ready. -/
theorem flat_asset_has_no_parts :
    flatRoot.children.map Object3D.id = [1, 2] ∧
    (partsParent flatRoot).id = 1 ∧
    (onSuccessExplodeData flatRoot rotatedBox).parts.map Object3D.id = [] ∧
    (onSuccessExplodeData flatRoot rotatedBox).ready = false :=
  ⟨rfl, rfl, rfl, rfl⟩

theorem cleanupOwned_initial : Card.initial.CleanupOwned := by
  intro c hc
  simp [Card.initial, ThreeRef.empty] at hc

theorem cleanupOwned_setup (E : Engine) (s : Card) (r : ℕ) (p : Option SetupThrow)
    (h : s.CleanupOwned) :
    (Card.setup E { s with pending := s.pending.filter (fun x => x != r) } r p).CleanupOwned := by
  rcases disposed_cases { s with pending := s.pending.filter (fun x => x != r) } r with hd | hd
  · rw [setup_disposed E _ r p hd]
    exact h
  · obtain ⟨hlive, hrun⟩ := (disposed_false_iff _ _).mp hd
    cases p with
    | none =>
      rw [setup_eq E _ r hd]
      intro c hc
      have hcr : r = c := by simpa using hc
      exact ⟨hlive, hcr ▸ hrun⟩
    | some q =>
      cases q with
      | renderer =>
        rw [setup_renderer_eq E _ r hd]
        exact h
      | controls =>
        rw [setup_controls_eq E _ r hd]
        exact h
      | url =>
        rw [setup_url_eq E _ r hd]
        intro c hc
        simp at hc
      | frame =>
        rw [setup_frame_eq E _ r hd]
        intro c hc
        simp at hc

theorem cleanupOwned_step (s : Card) (e : Event) (hf : s.canFire e = true)
    (h : s.CleanupOwned) : (s.step e).CleanupOwned := by
  cases e with
  | mount =>
    have hl : s.live = false := by simpa [Card.canFire] using hf
    intro c hc
    have := (h c hc).1
    rw [hl] at this
    cases this
  | teardown =>
    intro c hc
    change s.teardown.threeRef.cleanup = some c at hc
    cases hcl : s.threeRef.cleanup with
    | none =>
      rw [teardown_none s hcl] at hc
      rw [hcl] at hc
      cases hc
    | some c0 =>
      rw [teardown_some s c0 hcl] at hc
      simp [ThreeRef.empty] at hc
  | depResolved r E => exact cleanupOwned_setup E s r none h
  | setupThrew r E p => exact cleanupOwned_setup E s r (some p) h
  | depRejected r => exact h
  | timerTick t0 => exact h
  | frame l => exact h
  | progress r xhr =>
    change (Card.onProgress s r xhr).CleanupOwned
    unfold Card.onProgress
    split_ifs
    · exact h
    · exact h
  | directError r => exact h
  | success r root box E =>
    change (Card.onSuccess E s r root box).CleanupOwned
    rcases disposed_cases s r with hd | hd
    · rw [onSuccess_disposed E s r root box hd]
      exact h
    · rw [onSuccess_eq E s r root box hd]
      exact h
  | fetchFailed r =>
    change (Card.fallbackFailed s r).CleanupOwned
    rcases disposed_cases s r with hd | hd
    · rw [fallbackFailed_disposed s r hd]
      exact h
    · rw [fallbackFailed_eq s r hd]
      exact h
  | parseFailed r =>
    change (Card.fallbackFailed s r).CleanupOwned
    rcases disposed_cases s r with hd | hd
    · rw [fallbackFailed_disposed s r hd]
      exact h
    · rw [fallbackFailed_eq s r hd]
      exact h
  | slider v E =>
    change (Card.setExplode E s (max 0 (min 1 (v / 100)))).CleanupOwned
    rw [setExplode_eq]
    exact h

theorem cleanupOwned_exec (es : List Event) :
    ∀ s s1 : Card, s.CleanupOwned → s.exec es = some s1 → s1.CleanupOwned := by
  induction es with
  | nil =>
    intro s s1 h he
    simp only [Card.exec, Option.some.injEq] at he
    exact he ▸ h
  | cons e es ih =>
    intro s s1 h he
    unfold Card.exec at he
    split_ifs at he with hf
    exact ih (s.step e) s1 (cleanupOwned_step s e hf h) he

theorem exec_append (es1 es2 : List Event) :
    ∀ s s1 s2 : Card, s.exec es1 = some s1 → s1.exec es2 = some s2 →
      s.exec (es1 ++ es2) = some s2 := by
  induction es1 with
  | nil =>
    intro s s1 s2 h1 h2
    simp only [Card.exec, Option.some.injEq] at h1
    rw [h1]
    exact h2
  | cons e es ih =>
    intro s s1 s2 h1 h2
    unfold Card.exec at h1
    split_ifs at h1 with hf
    show Card.exec s (e :: (es ++ es2)) = some s2
    unfold Card.exec
    rw [if_pos hf]
    exact ih (s.step e) s1 s2 h1 h2

theorem teardown_teardown (s : Card) : s.teardown.teardown = s.teardown := by
  cases hc : s.threeRef.cleanup with
  | none =>
    rw [teardown_none s hc]
    exact teardown_none _ hc
  | some c =>
    rw [teardown_some s c hc]
    exact teardown_none _ rfl

/-- C26: teardown is idempotent: in any state, invoking it twice leaves the
state of invoking it once; when no cleanup is registered it only sets
`disposed`; and no cleanup is registered, in any state the card can reach,
while the live run's dependency load is pending or after it was rejected. -/
theorem teardown_idempotent :
    (∀ s : Card, s.teardown.teardown = s.teardown) ∧
    (∀ s : Card, s.threeRef.cleanup = none → s.teardown = { s with live := false }) ∧
    (∀ (es : List Event) (s : Card), Card.initial.exec es = some s →
      s.run ∈ s.pending → s.threeRef.cleanup = none) ∧
    (∀ (es1 es2 : List Event) (s1 s2 : Card) (r : ℕ), Card.initial.exec es1 = some s1 →
      s1.canFire (.depRejected r) = true →
      (s1.step (.depRejected r)).exec es2 = some s2 → s2.run = r →
      s2.threeRef.cleanup = none) := by
  refine ⟨teardown_teardown, teardown_none, ?_, ?_⟩
  · intro es s hreach hp
    have hown := cleanupOwned_exec es _ s cleanupOwned_initial hreach
    have hfresh := pendingFresh_exec es _ s pendingFresh_initial hreach
    cases hc : s.threeRef.cleanup with
    | none => rfl
    | some c =>
      exfalso
      have hcr := (hown c hc).2
      apply (hfresh.1 s.run hp).1
      unfold Card.hasContext
      rw [hc, hcr]
      simp
  · intro es1 es2 s1 s2 r h1 hf h2 hrun
    have hp : r ∈ s1.pending := by simpa [Card.canFire] using hf
    have hfresh := pendingFresh_exec es1 _ s1 pendingFresh_initial h1
    have hset : (s1.step (.depRejected r)).Settled r := by
      refine ⟨(hfresh.1 r hp).2, fun hm => ?_, fun hc => (hfresh.1 r hp).1 hc⟩
      exact ((mem_filter_ne _ _ _).mp hm).2 rfl
    have hset2 := settled_exec es2 r _ s2 hset h2
    have hreach : Card.initial.exec (es1 ++ .depRejected r :: es2) = some s2 := by
      apply exec_append es1 _ _ s1 s2 h1
      unfold Card.exec
      rw [if_pos hf]
      exact h2
    have hown := cleanupOwned_exec _ _ s2 cleanupOwned_initial hreach
    cases hc : s2.threeRef.cleanup with
    | none => rfl
    | some c =>
      exfalso
      have hcr := (hown c hc).2
      apply hset2.2.2
      unfold Card.hasContext
      rw [hc, hcr, hrun]
      simp

/-- Witness of C26: a card torn down while its first run awaits `ensureThree`,
and one torn down after that run's `ensureThree` was rejected. -/
theorem teardown_idempotent_witness :
    (∃ s : Card, Card.initial.exec [.mount] = some s ∧ s.run ∈ s.pending ∧
      s.threeRef.cleanup = none ∧ s.teardown = { s with live := false }) ∧
    (∃ s1 s2 : Card, Card.initial.exec [.mount] = some s1 ∧
      s1.canFire (.depRejected 1) = true ∧
      (s1.step (.depRejected 1)).exec [] = some s2 ∧ s2.run = 1 ∧
      s2.threeRef.cleanup = none) :=
  ⟨⟨_, rfl, by decide, teardown_idempotent.2.2.1 [.mount] _ rfl (by decide),
      teardown_idempotent.2.1 _ (teardown_idempotent.2.2.1 [.mount] _ rfl (by decide))⟩,
    ⟨_, _, rfl, rfl, rfl, rfl,
      teardown_idempotent.2.2.2 [.mount] [] _ _ 1 rfl rfl rfl rfl⟩⟩

/-! ## Gallery sections, slider, rotating text: the claims -/

/-- C27: a manifest that is unreachable, fails to parse, is `null` or is the
empty list yields the empty item list, and with the empty item list the
section renders the `Loading mesh list…` placeholder, which holds no card. -/
theorem empty_manifest_placeholder :
    manifestItems .unreachable = [] ∧
    manifestItems .parseFailure = [] ∧
    manifestItems (.json none) = [] ∧
    manifestItems (.json (some [])) = [] ∧
    renderSection [] = .placeholder "Loading mesh list…" ∧
    (∀ m : ManifestFetch,
      m = .unreachable ∨ m = .parseFailure ∨ m = .json none ∨ m = .json (some []) →
      renderSection (manifestItems m) = .placeholder "Loading mesh list…") ∧
    (∀ items : List MeshItem, items ≠ [] → renderSection items = .grid items) := by
  refine ⟨rfl, rfl, rfl, rfl, rfl, ?_, ?_⟩
  · rintro m (h | h | h | h) <;> rw [h] <;> rfl
  · intro items h
    unfold renderSection
    rw [if_pos]
    intro hl
    exact h (List.length_eq_zero.mp hl)

/-- Witness of C27: the manifest `[]`, and a manifest with one record. -/
theorem empty_manifest_placeholder_witness :
    renderSection (manifestItems (.json (some []))) = .placeholder "Loading mesh list…" ∧
    renderSection [⟨"a", "A", "a.glb"⟩] = .grid [⟨"a", "A", "a.glb"⟩] :=
  ⟨empty_manifest_placeholder.2.2.2.2.2.1 (.json (some [])) (Or.inr (Or.inr (Or.inr rfl))),
    empty_manifest_placeholder.2.2.2.2.2.2 [⟨"a", "A", "a.glb"⟩] (by simp)⟩

theorem jsRound_natCast (n : ℕ) : jsRound (n : ℚ) = n := by
  unfold jsRound
  rw [Int.floor_eq_iff]
  constructor <;> push_cast <;> norm_num

/-- C28: for every slider value `v` the handlers set the ExplodeFactor to
`v / 100` clamped to `[0,1]`; for every integer `v` from 0 to 100 it is
exactly `v / 100`, and the slider then displays `round(factor * 100) = v`. -/
theorem slider_factor_clamped (E : Engine) (s : Card) (v : ℚ) :
    (s.step (.slider v E)).explode = max 0 (min 1 (v / 100)) ∧
    sliderFactor v = max 0 (min 1 (v / 100)) ∧
    0 ≤ (s.step (.slider v E)).explode ∧ (s.step (.slider v E)).explode ≤ 1 ∧
    (∀ n : ℕ, n ≤ 100 →
      (s.step (.slider (n : ℚ) E)).explode = (n : ℚ) / 100 ∧
      sliderValue ((s.step (.slider (n : ℚ) E)).explode) = (n : ℤ)) := by
  have h : ∀ w : ℚ, (s.step (.slider w E)).explode = max 0 (min 1 (w / 100)) :=
    fun w => setExplode_explode E s _
  refine ⟨h v, rfl, ?_, ?_, fun n hn => ?_⟩
  · rw [h]
    exact le_max_left _ _
  · rw [h]
    exact max_le zero_le_one (min_le_left _ _)
  · have hq : ((n : ℚ) / 100) ≤ 1 := by
      rw [div_le_one (by norm_num)]
      exact_mod_cast hn
    have h0 : (0 : ℚ) ≤ (n : ℚ) / 100 := by positivity
    have hval : (s.step (.slider (n : ℚ) E)).explode = (n : ℚ) / 100 := by
      rw [h, min_eq_right hq, max_eq_right h0]
    refine ⟨hval, ?_⟩
    rw [hval]
    unfold sliderValue
    rw [div_mul_cancel₀ _ (by norm_num : (100 : ℚ) ≠ 0)]
    exact jsRound_natCast n

/-- Witness of C28: the slider value 37 on the initial card. -/
theorem slider_factor_clamped_witness :
    (37 : ℕ) ≤ 100 ∧
    (Card.initial.step (.slider ((37 : ℕ) : ℚ) rotatedEngine)).explode = ((37 : ℕ) : ℚ) / 100 ∧
    sliderValue ((Card.initial.step (.slider ((37 : ℕ) : ℚ) rotatedEngine)).explode)
      = ((37 : ℕ) : ℤ) :=
  ⟨by decide,
    (slider_factor_clamped rotatedEngine Card.initial 0).2.2.2.2 37 (by decide)⟩

/-- C29: for a non-empty text list of length `len` and a current index `i`
with `0 ≤ i < len`, the index after `next`, `previous`, `jumpTo(k)` for any
integer `k`, and `reset` lies in `[0, len)`; without looping `next` at the last
index and `previous` at index `0` leave the index unchanged, and with looping
they wrap to `0` and to `len - 1`. -/
theorem rotating_index_in_range (len i : ℤ) (hlen : 0 < len) (h0 : 0 ≤ i) (h1 : i < len) :
    (∀ loop : Bool, 0 ≤ RotatingText.next len i loop ∧ RotatingText.next len i loop < len) ∧
    (∀ loop : Bool,
      0 ≤ RotatingText.previous len i loop ∧ RotatingText.previous len i loop < len) ∧
    (∀ k : ℤ, 0 ≤ RotatingText.jumpTo len i k ∧ RotatingText.jumpTo len i k < len) ∧
    (0 ≤ RotatingText.reset i ∧ RotatingText.reset i < len) ∧
    RotatingText.next len (len - 1) false = len - 1 ∧
    RotatingText.previous len 0 false = 0 ∧
    RotatingText.next len (len - 1) true = 0 ∧
    RotatingText.previous len 0 true = len - 1 := by
  refine ⟨fun loop => ?_, fun loop => ?_, fun k => ?_, ?_, ?_, ?_, ?_, ?_⟩
  · unfold RotatingText.next
    cases loop <;> simp only [] <;> split_ifs <;> constructor <;> omega
  · unfold RotatingText.previous
    cases loop <;> simp only [] <;> split_ifs <;> constructor <;> omega
  · unfold RotatingText.jumpTo
    simp only []
    split_ifs
    · constructor
      · exact le_max_left _ _
      · exact max_lt hlen (lt_of_le_of_lt (min_le_right _ _) (by omega))
    · exact ⟨h0, h1⟩
  · unfold RotatingText.reset
    split_ifs <;> constructor <;> omega
  · simp [RotatingText.next]
  · simp [RotatingText.previous]
  · unfold RotatingText.next
    simp only []
    split_ifs <;> omega
  · unfold RotatingText.previous
    simp only []
    split_ifs <;> omega

/-- Witness of C29: three texts, current index `2`. -/
theorem rotating_index_in_range_witness :
    RotatingText.next 3 2 true = 0 ∧ RotatingText.next 3 2 false = 2 ∧
    (0 ≤ RotatingText.jumpTo 3 2 (-7) ∧ RotatingText.jumpTo 3 2 (-7) < 3) ∧
    (0 ≤ RotatingText.previous 3 2 false ∧ RotatingText.previous 3 2 false < 3) :=
  ⟨(rotating_index_in_range 3 2 (by decide) (by decide) (by decide)).2.2.2.2.2.2.1,
    (rotating_index_in_range 3 2 (by decide) (by decide) (by decide)).2.2.2.2.1,
    (rotating_index_in_range 3 2 (by decide) (by decide) (by decide)).2.2.1 (-7),
    (rotating_index_in_range 3 2 (by decide) (by decide) (by decide)).2.1 false⟩

theorem jsMod_of_nonneg (a b : ℤ) (ha : 0 ≤ a) (hb : 0 ≤ b) : jsMod a b = a % b :=
  Int.tmod_eq_emod ha hb

/-- C30: for `n > 0` items and an active index `i` with `0 ≤ i < n`, `next`
yields `(i + 1) mod n` and `prev` yields `(i - 1 + n) mod n`, both in
`[0, n)`, and `prev` and `next` undo each other. -/
theorem editing_prev_next (n i : ℤ) (hn : 0 < n) (h0 : 0 ≤ i) (h1 : i < n) :
    EditingSection.next n i = (i + 1) % n ∧
    EditingSection.prev n i = (i - 1 + n) % n ∧
    (0 ≤ EditingSection.next n i ∧ EditingSection.next n i < n) ∧
    (0 ≤ EditingSection.prev n i ∧ EditingSection.prev n i < n) ∧
    EditingSection.prev n (EditingSection.next n i) = i ∧
    EditingSection.next n (EditingSection.prev n i) = i := by
  have hnext : ∀ j : ℤ, 0 ≤ j → EditingSection.next n j = (j + 1) % n :=
    fun j hj => jsMod_of_nonneg _ _ (by omega) hn.le
  have hprev : ∀ j : ℤ, 0 ≤ j → EditingSection.prev n j = (j - 1 + n) % n :=
    fun j hj => jsMod_of_nonneg _ _ (by omega) hn.le
  have hn0 : 0 ≤ (i + 1) % n := Int.emod_nonneg _ hn.ne'
  have hn1 : (i + 1) % n < n := Int.emod_lt_of_pos _ hn
  have hp0 : 0 ≤ (i - 1 + n) % n := Int.emod_nonneg _ hn.ne'
  have hp1 : (i - 1 + n) % n < n := Int.emod_lt_of_pos _ hn
  refine ⟨hnext i h0, hprev i h0, ?_, ?_, ?_, ?_⟩
  · rw [hnext i h0]
    exact ⟨hn0, hn1⟩
  · rw [hprev i h0]
    exact ⟨hp0, hp1⟩
  · rw [hnext i h0, hprev _ hn0]
    by_cases hlast : i + 1 = n
    · have : (i + 1) % n = 0 := by rw [hlast]; exact Int.emod_self
      rw [this]
      have h2 : (0 - 1 + n) % n = n - 1 := by
        rw [Int.emod_eq_of_lt (by omega) (by omega)]
        ring
      rw [h2]
      omega
    · have : (i + 1) % n = i + 1 := Int.emod_eq_of_lt (by omega) (by omega)
      rw [this]
      have h2 : (i + 1 - 1 + n) % n = i := by
        have : i + 1 - 1 + n = i + n := by ring
        rw [this, Int.add_emod_self]
        exact Int.emod_eq_of_lt h0 h1
      exact h2
  · rw [hprev i h0, hnext _ hp0]
    by_cases hfirst : i = 0
    · subst hfirst
      have : (0 - 1 + n) % n = n - 1 := by
        rw [Int.emod_eq_of_lt (by omega) (by omega)]
        ring
      rw [this]
      have h2 : (n - 1 + 1) % n = 0 := by
        have : n - 1 + 1 = n := by ring
        rw [this]
        exact Int.emod_self
      exact h2
    · have : (i - 1 + n) % n = i - 1 := by
        rw [Int.add_emod_self]
        exact Int.emod_eq_of_lt (by omega) (by omega)
      rw [this]
      have h2 : (i - 1 + 1) % n = i := by
        have : i - 1 + 1 = i := by ring
        rw [this]
        exact Int.emod_eq_of_lt h0 h1
      exact h2

/-- Witness of C30: five items, from the last index and from the first. -/
theorem editing_prev_next_witness :
    EditingSection.next 5 4 = (4 + 1) % 5 ∧
    EditingSection.prev 5 (EditingSection.next 5 4) = 4 ∧
    EditingSection.next 5 (EditingSection.prev 5 0) = 0 :=
  ⟨(editing_prev_next 5 4 (by decide) (by decide) (by decide)).1,
    (editing_prev_next 5 4 (by decide) (by decide) (by decide)).2.2.2.2.1,
    (editing_prev_next 5 0 (by decide) (by decide) (by decide)).2.2.2.2.2⟩

end MeshGen
